import Mathlib

/-!
# Verification of the csv-aggregator backend (`src/backend/csv_handler.py`)

This file gives a shallow embedding of the four pipeline stages of
`csv_handler.py` — `read_csv_files`, `validate_dataframes_for_processing`,
`perform_column_comparison` and the highlight derivation of
`generate_excel_output` — and proves the frozen specification claims
about them.

Modelling conventions (documented once here, referenced below):

* Text is `List Char` (named `Str`), so that every definition reduces in
  the kernel; raw file content is `List Nat` (one `Nat < 256` per byte).
* pandas `DataFrame`s are `{ columns : List (List Char), rows : List (List Value) }`
  with `Value = num (Int) | str | nan`.  Numeric literals are modelled as
  integers (the claims under verification are about structure — joins,
  intersections, strict threshold comparison — not about float rounding).
* A column "has numeric dtype" iff it is non-empty and all of its cells
  are numbers or NaN.  (The empty case mirrors pandas's `object` dtype
  for the columns of a zero-row `read_csv` result.)
* `pd.read_csv(sep=None, engine='python')` is modelled by a deterministic
  sniffer: the first delimiter from `csv.Sniffer`'s preferred list
  `[',', '\t', ';', ' ', ':']` that occurs in the first line and occurs
  equally often in every line.  A failed sniff raises `ParserError`
  (which `_try_parse_csv_with_encoding` re-raises), an empty file raises
  `EmptyDataError` (which it swallows).
* Encodings: utf-8 is modelled on its ASCII fragment (non-ASCII bytes
  fail to decode), utf-8-sig additionally strips an initial BOM byte
  triple, latin-1 decodes every byte.  CSV quoting and duplicate-label
  mangling are outside the model; lookup of a duplicated merged label is
  approximated by first match.
-/

set_option linter.unusedVariables false

namespace CsvAgg

/-- Text modelled as an explicit character list so every string operation
is structurally recursive and kernel-reducible. -/
abbrev Str := List Char

/-- Split a character list at every occurrence of the delimiter
(`str.split(d)` / the field splitting done by `pd.read_csv(sep=d)`). -/
def splitOnChar (d : Char) : Str → List Str
  | [] => [[]]
  | c :: cs =>
    let r := splitOnChar d cs
    if c = d then [] :: r
    else
      match r with
      | [] => [[c]]
      | h :: t => (c :: h) :: t

/-- Characters removed by Python's `str.strip()`. -/
def isSpaceChar (c : Char) : Bool :=
  c = ' ' ∨ c = '\t' ∨ c = '\r' ∨ c = '\n'

/-- Python's `str.strip()`. -/
def trimChars (cs : Str) : Str :=
  ((cs.dropWhile isSpaceChar).reverse.dropWhile isSpaceChar).reverse

/-- Digit-string parsing helper for the integer fragment of numeric
coercion. -/
def parseDigits (cs : Str) : Option Nat :=
  if cs.isEmpty then none
  else if cs.all Char.isDigit then
    some (cs.foldl (fun a c => a * 10 + (c.toNat - 48)) 0)
  else none

/-- The integer fragment of pandas numeric parsing (`pd.to_numeric` and
`read_csv` type inference): optional sign after stripping whitespace. -/
def toIntOpt (cs : Str) : Option Int :=
  match trimChars cs with
  | '-' :: rest => (parseDigits rest).map (fun n => -(n : Int))
  | '+' :: rest => (parseDigits rest).map (fun n => (n : Int))
  | t => (parseDigits t).map (fun n => (n : Int))

/-- A cell of a table: a number, a text value, or a missing value. -/
inductive Value where
  | num (x : Int)
  | str (s : Str)
  | nan
deriving DecidableEq, Repr

/-- `pd.isna` on a single cell. -/
def Value.isNa : Value → Bool
  | .nan => true
  | _ => false

/-- Is the cell an actual number? -/
def Value.isNum : Value → Bool
  | .num _ => true
  | _ => false

/-- The in-memory table produced by `read_csv_files`: ordered column
names and ordered rows (row-major cells, aligned with `columns`). -/
structure DataFrame where
  columns : List Str
  rows : List (List Value)
deriving DecidableEq, Repr

/-- `df.empty` in pandas: some axis has length zero. -/
def DataFrame.isEmptyDf (df : DataFrame) : Bool :=
  df.rows.isEmpty || df.columns.isEmpty

/-- Cell of a row under a column-name list: the entry of `r` at the
position of the first occurrence of `c` in `cols` (`NaN` when the row is
short, as a missing cell). -/
def rowCell (cols : List Str) (r : List Value) (c : Str) : Value :=
  match cols, r with
  | [], _ => .nan
  | _ :: _, [] => .nan
  | c0 :: cs, v :: vs => if c0 = c then v else rowCell cs vs c

/-- `df[c]` as a value list.  Callers only use it with `c` present in
`df.columns` (pandas would raise `KeyError` otherwise). -/
def colD (df : DataFrame) (c : Str) : List Value :=
  df.rows.map (fun r => rowCell df.columns r c)

/-- `pd.api.types.is_numeric_dtype` on a column, reconstructed from the
cell values: non-empty and every cell numeric or NaN (see header notes). -/
def isNumericDtype (cells : List Value) : Bool :=
  !cells.isEmpty && cells.all (fun v => v.isNum || v.isNa)

/-! ## The parser (`_get_file_lines`, `_is_likely_binary_from_chunk`,
`_try_parse_csv_with_encoding`, `read_csv_files`) -/

/-- The three encodings tried by `read_csv_files`, in order. -/
inductive Encoding where
  | utf8sig
  | utf8
  | latin1
deriving DecidableEq, Repr

/-- UTF-8 decoding, modelled on its ASCII fragment: non-ASCII bytes make
the decode fail (a `UnicodeDecodeError` in the Python code). -/
def decodeUtf8Core (bs : List Nat) : Option Str :=
  if bs.all (fun b => b < 128) then some (bs.map Char.ofNat) else none

/-- The UTF-8 byte-order-mark prefix. -/
def bomBytes : List Nat := [239, 187, 191]

/-- Decode raw bytes with one of the three encodings. -/
def decode : Encoding → List Nat → Option Str
  | .utf8, bs => decodeUtf8Core bs
  | .utf8sig, bs => decodeUtf8Core (if bs.take 3 = bomBytes then bs.drop 3 else bs)
  | .latin1, bs => some (bs.map Char.ofNat)

/-- Physical lines as produced by iterating over an open Python text
file: split at newlines, with no phantom line after a trailing newline. -/
def rawLines (text : Str) : List Str :=
  let ps := splitOnChar '\n' text
  match ps.getLast? with
  | some [] => ps.dropLast
  | _ => ps

/-- Lines as consumed by `pd.read_csv` (`skip_blank_lines=True` default):
fully empty lines are dropped. -/
def getLines (text : Str) : List Str :=
  (splitOnChar '\n' text).filter (fun l => !l.isEmpty)

/-- `_get_file_lines(filepath, encoding, max_lines=5)`: first lines of
the file, `strip()`ed; `none` when reading/decoding fails. -/
def getFileLinesM (bytes : List Nat) (enc : Encoding) (maxLines : Nat) : Option (List Str) :=
  (decode enc bytes).map (fun t => ((rawLines t).take maxLines).map trimChars)

/-- `_is_likely_binary_from_chunk`: a null byte in the first 1024 bytes. -/
def isLikelyBinaryFromChunk (bytes : List Nat) : Bool :=
  (bytes.take 1024).contains 0

/-- The delimiter candidates of `read_csv_files`. -/
def commonDelimiters : List Char := [',', ';', '\t', '|']

/-- `csv.Sniffer`'s preferred delimiters, tried in order by the modelled
`sep=None` auto-detection. -/
def sniffDelims : List Char := [',', '\t', ';', ' ', ':']

/-- Occurrences of a character in a line. -/
def countChar (s : Str) (c : Char) : Nat :=
  (s.filter (fun x => x = c)).length

/-- Modelled `csv.Sniffer` delimiter guess (see header notes). -/
def sniffSep : List Str → Option Char
  | [] => none
  | l0 :: rest =>
    sniffDelims.find? (fun d =>
      decide (0 < countChar l0 d) && rest.all (fun l => countChar l d = countChar l0 d))

/-- Exceptions of the pandas calls that the Python code distinguishes. -/
inductive PdError where
  | emptyData
  | parserError
deriving DecidableEq, Repr

/-- Column-major numeric inference for one parsed column of raw fields:
pandas reads the column as numbers iff every field is empty or numeric. -/
def colNumericOk (cells : List Str) : Bool :=
  cells.all (fun s => s.isEmpty || (toIntOpt s).isSome)

/-- One raw field to a cell, given the column's inferred dtype: empty
fields are `NaN`, numeric columns parse, text columns keep the field. -/
def inferCell (numericCol : Bool) (s : Str) : Value :=
  if s.isEmpty then .nan
  else if numericCol then .num ((toIntOpt s).getD 0)
  else .str s

/-- Raw field at position `j` of every row. -/
def columnAt (j : Nat) (rows : List (List Str)) : List Str :=
  rows.map (fun r => r.getD j [])

/-- Apply per-column type inference to padded raw rows. -/
def inferColumns (ncols : Nat) (rows : List (List Str)) : List (List Value) :=
  let numeric := (List.range ncols).map (fun j => colNumericOk (columnAt j rows))
  rows.map (fun r => (List.range ncols).map (fun j => inferCell (numeric.getD j false) (r.getD j [])))

/-- Parse non-empty lines with an explicit delimiter: first line is the
header; longer rows are dropped (`on_bad_lines='warn'`), shorter rows are
NaN-padded; then per-column type inference. -/
def parseLines (d : Char) (ls : List Str) : DataFrame :=
  match ls with
  | [] => ⟨[], []⟩
  | h :: rest =>
    let header := splitOnChar d h
    let ncols := header.length
    let rawRows := (rest.map (splitOnChar d)).filter (fun r => r.length ≤ ncols)
    let padded := rawRows.map (fun r => r ++ List.replicate (ncols - r.length) [])
    ⟨header, inferColumns ncols padded⟩

/-- `pd.read_csv(path, sep=None, engine='python', ...)`. -/
def readCsvSniff (text : Str) : Except PdError DataFrame :=
  let ls := getLines text
  if ls.isEmpty then .error .emptyData
  else
    match sniffSep ls with
    | some d => .ok (parseLines d ls)
    | none => .error .parserError

/-- `pd.read_csv(path, sep=delim, ...)` with an explicit delimiter. -/
def readCsvWithSep (d : Char) (text : Str) : Except PdError DataFrame :=
  let ls := getLines text
  if ls.isEmpty then .error .emptyData
  else .ok (parseLines d ls)

/-- Lines 46-53 of `csv_handler.py`: re-split a header-only single-column
result using each common delimiter present in the header string. -/
def headerResplit (hdr : Str) (text : Str) : List Char → Option DataFrame
  | [] => none
  | d :: rest =>
    if hdr.contains d ∧ 1 < (splitOnChar d hdr).length then
      match readCsvWithSep d text with
      | .ok df2 => if 1 < df2.columns.length then some df2 else headerResplit hdr text rest
      | .error _ => headerResplit hdr text rest
    else headerResplit hdr text rest

/-- Strategy 2 of `_try_parse_csv_with_encoding` (lines 61-75): try each
common delimiter, return the first multi-column parse, otherwise keep the
best candidate (lines 69-72). -/
def strategy2 : List Char → Str → Option DataFrame → Option DataFrame
  | [], _, cand => cand
  | d :: rest, text, cand =>
    match readCsvWithSep d text with
    | .error _ => strategy2 rest text cand
    | .ok dfTry =>
      if 1 < dfTry.columns.length then some dfTry
      else
        match cand with
        | none => strategy2 rest text (some dfTry)
        | some best =>
          if best.columns.length = 1 ∧ best.isEmptyDf ∧ !dfTry.isEmptyDf then
            strategy2 rest text (some dfTry)
          else strategy2 rest text (some best)

/-- `_try_parse_csv_with_encoding`: `.error .parserError` models the
re-raised `pd.errors.ParserError` (line 56-57); all other exceptions are
swallowed per strategy.  A failed decode makes every `read_csv` call fail,
so both strategies fall through and the function returns no candidate. -/
def tryParseCsvWithEncoding (enc : Encoding) (bytes : List Nat) : Except PdError (Option DataFrame) :=
  match decode enc bytes with
  | none => .ok none
  | some text =>
    match readCsvSniff text with
    | .error .parserError => .error .parserError
    | .error .emptyData => .ok (strategy2 commonDelimiters text none)
    | .ok df =>
      if 1 < df.columns.length then .ok (some df)
      else
        if df.rows.length = 0 ∧ df.columns.length = 1 then
          match df.columns with
          | [hdr] =>
            match headerResplit hdr text commonDelimiters with
            | some df2 => .ok (some df2)
            | none => .ok (strategy2 commonDelimiters text (some df))
          | _ => .ok (strategy2 commonDelimiters text (some df))
        else .ok (strategy2 commonDelimiters text (some df))

/-- The `'﻿'` byte-order-mark character. -/
def bomChar : Char := Char.ofNat 0xFEFF

/-- Python's `col.replace('﻿', '', 1)` for a single character. -/
def removeFirstChar (target : Char) : Str → Str
  | [] => []
  | c :: cs => if c = target then cs else c :: removeFirstChar target cs

/-- Lines 107-109: strip a leading BOM character from the column names
when the first column name starts with one. -/
def stripBomCols (df : DataFrame) : DataFrame :=
  match df.columns with
  | c0 :: _ =>
    if c0.head? = some bomChar then ⟨df.columns.map (removeFirstChar bomChar), df.rows⟩
    else df
  | [] => df

def msgNotFound : Str := "File not found".toList
def msgBinary : Str :=
  "File appears to be binary or contains null bytes, making it unparseable as CSV.".toList
def msgEmptyNoCols : Str :=
  "Parsed as an empty table with no columns. Content might be invalid or truly empty.".toList
def msgCouldNotParse : Str := "Could not parse CSV. Tried encodings.".toList
def msgEncodingError : Str := "Encoding error".toList
def msgEmptyFile : Str := "File is empty.".toList

/-- Column count of the best candidate so far (0 when there is none). -/
def bestCols (best : Option DataFrame) : Nat :=
  (best.getD ⟨[], []⟩).columns.length

/-- The per-file encoding loop of `read_csv_files` (lines 101-129),
returning the best DataFrame and accumulated parse error messages.  The
`emptyData` branch mirrors lines 122-127 (unreachable here because
`tryParseCsvWithEncoding` swallows `EmptyDataError` internally). -/
def encodingLoop : List Encoding → List Nat → Option DataFrame → List Str →
    Option DataFrame × List Str
  | [], _, best, errs => (best, errs)
  | enc :: rest, bytes, best, errs =>
    match tryParseCsvWithEncoding enc bytes with
    | .error .parserError => encodingLoop rest bytes best (errs ++ [msgEncodingError])
    | .error .emptyData =>
      ((if best.isNone then some ⟨[], []⟩ else best), errs ++ [msgEmptyFile])
    | .ok none => encodingLoop rest bytes best errs
    | .ok (some cur0) =>
      let cur := if enc = .utf8sig then stripBomCols cur0 else cur0
      let best2 :=
        if best.isNone ∨ bestCols best < cur.columns.length ∨
            (enc = .utf8sig ∧ (best.isNone ∨ bestCols best ≤ cur.columns.length)) then
          some cur
        else best
      if 1 < bestCols best2 then (best2, errs)
      else encodingLoop rest bytes best2 errs

/-- Encoding order of `read_csv_files` (line 83). -/
def encodingsToTry : List Encoding := [.utf8sig, .utf8, .latin1]

/-- Lines 135-136: does the `" "`-joined 5-line sample of the file (read
back with the first encoding) contain none of the common delimiters? -/
def sampleNoDelims (bytes : List Nat) : Bool :=
  let sample := List.intercalate [' '] ((getFileLinesM bytes .utf8sig 5).getD [])
  !(commonDelimiters.any (fun d => sample.contains d))

/-- The synthetic column name of the single-column re-parse (line 144,
`names=['data']`). -/
def dataColName : Str := "data".toList

/-- Line 144: re-parse the file as a single column using the bell
character as an (unlikely) separator, `header=None`.  Lines that do
contain the bell character would split into more fields than the one
provided name and are dropped as bad lines. -/
def singleColReparse (bytes : List Nat) : Option DataFrame :=
  match decode .utf8sig bytes with
  | none => none
  | some text =>
    let ls := (getLines text).filter (fun l => !(l.contains (Char.ofNat 7)))
    if ls.isEmpty then none
    else some ⟨[dataColName], inferColumns 1 (ls.map (fun l => [l]))⟩

/-- Lines 133-148: the over-splitting correction. -/
def overSplitCorrect (bytes : List Nat) (df : DataFrame) : DataFrame :=
  if 1 < df.columns.length ∧ 0 < df.rows.length then
    if sampleNoDelims bytes then
      match singleColReparse bytes with
      | some sc => if sc.columns.length = 1 then sc else df
      | none => df
    else df
  else df

/-- Lines 132-158: post-parsing evaluation of the best candidate. -/
def finalizeBest (bytes : List Nat) (best : Option DataFrame) (errs : List Str) :
    Except Str DataFrame :=
  match best with
  | none => .error (msgCouldNotParse ++ List.intercalate [';', ' '] errs)
  | some df0 =>
    let df := overSplitCorrect bytes df0
    if df.isEmptyDf ∧ df.columns.length = 0 then .error msgEmptyNoCols
    else .ok df

/-- The per-file body of `read_csv_files` (lines 85-158); `none` content
models a missing file (the `os.path.exists` check). -/
def processFile (content : Option (List Nat)) : Except Str DataFrame :=
  match content with
  | none => .error msgNotFound
  | some bytes =>
    if isLikelyBinaryFromChunk bytes then .error msgBinary
    else
      let pr := encodingLoop encodingsToTry bytes none []
      finalizeBest bytes pr.1 pr.2

/-- One loop iteration of `read_csv_files`: route the per-file outcome
into the `dataframes` or the `errors` accumulator. -/
def readStep (fs : String → Option (List Nat))
    (acc : List (String × DataFrame) × List (String × Str)) (p : String) :
    List (String × DataFrame) × List (String × Str) :=
  match processFile (fs p) with
  | .ok df => (acc.1 ++ [(p, df)], acc.2)
  | .error e => (acc.1, acc.2 ++ [(p, e)])

/-- `read_csv_files`: the filesystem is a lookup from stored names to
byte content; results are split into parsed tables and per-file errors. -/
def read_csv_files (paths : List String) (fs : String → Option (List Nat)) :
    List (String × DataFrame) × List (String × Str) :=
  paths.foldl (readStep fs) ([], [])

/-- ASCII bytes of a string literal, for concrete test files. -/
def asciiBytes (s : String) : List Nat :=
  s.toList.map Char.toNat

/-! ## The validator (`validate_dataframes_for_processing`) -/

/-- `pd.to_numeric(v, errors='coerce')` on one cell. -/
def coerceNumeric : Value → Value
  | .num x => .num x
  | .nan => .nan
  | .str s =>
    match toIntOpt s with
    | some n => .num n
    | none => .nan

/-- Replace, inside row `r`, the cell at the position of the first
occurrence of `c` in `cols`. -/
def setRow (cols : List Str) (r : List Value) (c : Str) (v : Value) : List Value :=
  match cols, r with
  | [], _ => r
  | _ :: _, [] => []
  | c0 :: cs, x :: xs => if c0 = c then v :: xs else x :: setRow cs xs c v

/-- `df[c] = vs`: replace the cells of the first column named `c`.  In
the validator this always targets an existing column. -/
def setCol (df : DataFrame) (c : Str) (vs : List Value) : DataFrame :=
  ⟨df.columns, df.rows.zipWith (fun r v => setRow df.columns r c v) vs⟩

def msgOpColNotFound : Str := "Operation column not found.".toList
def msgDataLoss : Str :=
  "Operation column could not be converted to a numeric type without significant data loss (all values became NaN).".toList
def msgCoercedNaN : Str :=
  "Operation column contains non-numeric values that were converted to NaN, or it originally contained NaNs. This column must be purely numeric for merging.".toList
def msgKeyNaN : Str :=
  "Operation column contains NaN values. Files must not have NaNs in this column for merging.".toList
def msgNoNumericCols : Str :=
  "No numeric columns found for comparison (excluding operation column).".toList

/-- Line 204: the comparable numeric columns of a table, excluding the
operation column. -/
def numericColsOf (df : DataFrame) (opCol : Str) : List Str :=
  df.columns.filter (fun c => decide (c ≠ opCol) && isNumericDtype (colD df c))

/-- The per-file body of `validate_dataframes_for_processing`
(lines 167-220), on the copy of the input table: returns the validated
table together with its comparable numeric column names, or the first
failing check's diagnostic. -/
def validateOne (df : DataFrame) (opCol : Str) : Except Str (DataFrame × List Str) :=
  if opCol ∈ df.columns then
    let colVals := colD df opCol
    let afterCoerce : Except Str (DataFrame × List Value) :=
      if isNumericDtype colVals then .ok (df, colVals)
      else
        let originalNonNa := (colVals.filter (fun v => !v.isNa)).length
        let converted := colVals.map coerceNumeric
        if converted.all (fun v => v.isNa) ∧ 0 < originalNonNa then .error msgDataLoss
        else
          let df2 := setCol df opCol converted
          if converted.any (fun v => v.isNa) then .error msgCoercedNaN
          else .ok (df2, converted)
    match afterCoerce with
    | .error e => .error e
    | .ok (df2, keyVals) =>
      if keyVals.any (fun v => v.isNa) then .error msgKeyNaN
      else
        if (numericColsOf df2 opCol).isEmpty then .error msgNoNumericCols
        else .ok (df2, numericColsOf df2 opCol)
  else .error msgOpColNotFound

/-- A validated table (`{'filename', 'dataframe', 'numeric_columns'}`). -/
structure ValidatedEntry where
  filename : String
  dataframe : DataFrame
  numeric_columns : List Str
deriving DecidableEq, Repr

/-- One loop iteration of `validate_dataframes_for_processing`. -/
def validateStep (opCol : Str) (acc : List ValidatedEntry × List (String × Str))
    (it : String × DataFrame) : List ValidatedEntry × List (String × Str) :=
  match validateOne it.2 opCol with
  | .ok pr => (acc.1 ++ [⟨it.1, pr.1, pr.2⟩], acc.2)
  | .error m => (acc.1, acc.2 ++ [(it.1, m)])

/-- `validate_dataframes_for_processing` over the whole input list. -/
def validate_dataframes_for_processing (items : List (String × DataFrame)) (opCol : Str) :
    List ValidatedEntry × List (String × Str) :=
  items.foldl (validateStep opCol) ([], [])

/-- The final contents of the `.copy()` made at line 169 after the
validator body ran on it: the coerced key column is written back at
line 189 unless an earlier check already rejected the table. -/
def validateCopyFinal (df : DataFrame) (opCol : Str) : DataFrame :=
  if opCol ∈ df.columns then
    let colVals := colD df opCol
    if isNumericDtype colVals then df
    else
      let originalNonNa := (colVals.filter (fun v => !v.isNa)).length
      let converted := colVals.map coerceNumeric
      if converted.all (fun v => v.isNa) ∧ 0 < originalNonNa then df
      else setCol df opCol converted
  else df

/-- Heap-instrumented form of the validator body, making the Python
aliasing explicit: the heap is a list of dataframe objects, the input is
a reference (index) into it, `item['dataframe'].copy()` allocates a new
cell at the end of the heap, and the key-column assignment mutates only
that new cell.  The verdict returns the reference of the copy. -/
def validateOneHeap (heap : List DataFrame) (r : Nat) (opCol : Str) :
    List DataFrame × Except Str (Nat × List Str) :=
  let df := heap.getD r ⟨[], []⟩
  (heap ++ [validateCopyFinal df opCol],
   (validateOne df opCol).map (fun pr => (heap.length, pr.2)))

/-! ## The comparison engine (`perform_column_comparison`) -/

/-- Merge suffix for the reference side. -/
def sufREF : Str := "_REF".toList

/-- Merge suffix for the other side. -/
def sufOTH : Str := "_OTH".toList

/-- Column name of the per-series difference column. -/
def diffColName : Str := "difference".toList

/-- `list(set(...))` on the selected merge columns, modelled as
order-preserving deduplication (set iteration order is irrelevant to
every produced result). -/
def dedupAux (seen : List Str) : List Str → List Str
  | [] => []
  | c :: cs => if c ∈ seen then dedupAux seen cs else c :: dedupAux (seen ++ [c]) cs

/-- Lines 255-260: `[operation_column] + [col for col in numeric_cols if
col in df.columns and col != operation_column]`, deduplicated. -/
def selectionCols (df : DataFrame) (numCols : List Str) (opCol : Str) : List Str :=
  dedupAux [] (opCol :: numCols.filter (fun c => decide (c ∈ df.columns) && decide (c ≠ opCol)))

/-- `df[cols]` column selection (`none` models the `KeyError` raised when
a requested column is absent, caught by the surrounding `try`). -/
def dfSelect (df : DataFrame) (cols : List Str) : Option DataFrame :=
  if cols.all (fun c => decide (c ∈ df.columns)) then
    some ⟨cols, df.rows.map (fun r => cols.map (fun c => rowCell df.columns r c))⟩
  else none

/-- `pd.merge(l, r, on=key, suffixes=('_REF','_OTH'), how='inner')`:
overlapping non-key columns are suffixed on both sides; the rows are all
key-matching pairs, in left-major order (pandas preserves the order of
the left keys). -/
def mergeInner (l r : DataFrame) (key : Str) : DataFrame :=
  let lval := l.columns.filter (fun c => decide (c ≠ key))
  let rval := r.columns.filter (fun c => decide (c ≠ key))
  let lcols := lval.map (fun c => if c ∈ rval then c ++ sufREF else c)
  let rcols := rval.map (fun c => if c ∈ lval then c ++ sufOTH else c)
  ⟨key :: (lcols ++ rcols),
   l.rows.flatMap (fun lr =>
     (r.rows.filter (fun rr => decide (rowCell r.columns rr key = rowCell l.columns lr key))).map
       (fun rr =>
         rowCell l.columns lr key ::
           (lval.map (rowCell l.columns lr) ++ rval.map (rowCell r.columns rr))))⟩

/-- The row produced by the inner merge for a matching pair of rows. -/
def mergedRow (l r : DataFrame) (key : Str) (lr rr : List Value) : List Value :=
  rowCell l.columns lr key ::
    ((l.columns.filter (fun c => decide (c ≠ key))).map (rowCell l.columns lr) ++
     (r.columns.filter (fun c => decide (c ≠ key))).map (rowCell r.columns rr))

/-- `(a - b).abs()` cellwise; NaN propagates. -/
def absDiff : Value → Value → Value
  | .num a, .num b => .num (if a - b < 0 then b - a else a - b)
  | _, _ => .nan

/-- Lines 316-321: build the difference series stored for one column of
one pair: the merged key column next to the absolute difference of the
suffixed reference and other columns. -/
def makeSeries (merged : DataFrame) (opCol c : Str) : DataFrame :=
  ⟨[opCol, diffColName],
   List.zipWith (fun k d => [k, d]) (colD merged opCol)
     (List.zipWith absDiff (colD merged (c ++ sufREF)) (colD merged (c ++ sufOTH)))⟩

/-- A comparison warning (`{'type', 'message'}`). -/
structure CompWarning where
  wtype : String
  message : String
deriving DecidableEq, Repr

def wSetup : CompWarning := ⟨"SetupWarning", "At least two DataFrames are required for comparison."⟩
def wNoRefNumeric : CompWarning := ⟨"DataWarning", "Reference DataFrame has no numeric columns to compare (excluding operation column)."⟩
def wMergeError : CompWarning := ⟨"MergeError", "Could not merge on operation column."⟩
def wMergeEmpty : CompWarning := ⟨"MergeWarning", "Merge resulted in an empty DataFrame. No common operation column values."⟩
def wInternal : CompWarning := ⟨"InternalLogicWarning", "Reference column was not found in merged data."⟩
def wColMissing : CompWarning := ⟨"ColumnMissingInOtherWarning", "Column did not have a corresponding numeric column in the other file for comparison."⟩
def wDataType : CompWarning := ⟨"DataTypeWarning", "Columns are not consistently numeric in merged data. Skipping difference calculation."⟩

/-- The key of `comparison_results`: `(column, reference file, other file)`. -/
abbrev ResultKey := Str × String × String

/-- Python-dict assignment on an ordered association list: overwrite in
place when the key is present, append otherwise. -/
def dictInsert (k : ResultKey) (v : DataFrame) (res : List (ResultKey × DataFrame)) :
    List (ResultKey × DataFrame) :=
  if res.any (fun kv => decide (kv.1 = k)) then
    res.map (fun kv => if kv.1 = k then (k, v) else kv)
  else res ++ [(k, v)]

/-- Lines 286-321: one reference numeric column within one pair. -/
def stepColumn (merged : DataFrame) (opCol : Str) (refName othName : String)
    (acc : List (ResultKey × DataFrame) × List CompWarning) (c : Str) :
    List (ResultKey × DataFrame) × List CompWarning :=
  if (c ++ sufREF) ∈ merged.columns then
    if (c ++ sufOTH) ∈ merged.columns then
      if isNumericDtype (colD merged (c ++ sufREF)) && isNumericDtype (colD merged (c ++ sufOTH)) then
        (dictInsert (c, refName, othName) (makeSeries merged opCol c) acc.1, acc.2)
      else (acc.1, acc.2 ++ [wDataType])
    else (acc.1, acc.2 ++ [wColMissing])
  else (acc.1, acc.2 ++ [wInternal])

/-- Lines 247-321: one `(reference, other)` pair. -/
def stepPair (refE : ValidatedEntry) (opCol : Str)
    (acc : List (ResultKey × DataFrame) × List CompWarning) (othE : ValidatedEntry) :
    List (ResultKey × DataFrame) × List CompWarning :=
  let colsRef := selectionCols refE.dataframe refE.numeric_columns opCol
  let colsOth := selectionCols othE.dataframe othE.numeric_columns opCol
  match dfSelect refE.dataframe colsRef, dfSelect othE.dataframe colsOth with
  | some lsel, some rsel =>
    let merged := mergeInner lsel rsel opCol
    if merged.rows.isEmpty then (acc.1, acc.2 ++ [wMergeEmpty])
    else refE.numeric_columns.foldl (stepColumn merged opCol refE.filename othE.filename) acc
  | _, _ => (acc.1, acc.2 ++ [wMergeError])

/-- `perform_column_comparison` (lines 225-323). -/
def perform_column_comparison (validated : List ValidatedEntry) (opCol : Str) :
    List (ResultKey × DataFrame) × List CompWarning :=
  match validated with
  | refE :: o1 :: os =>
    let warn0 : List CompWarning := if refE.numeric_columns.isEmpty then [wNoRefNumeric] else []
    (o1 :: os).foldl (stepPair refE opCol) ([], warn0)
  | _ => ([], [wSetup])

/-! ## The report highlight derivation (`generate_excel_output`,
lines 339-349) -/

/-- `diff_df['difference'].abs() > threshold_value` on one cell: strictly
greater; NaN (and any non-number) compares false. -/
def absGtB (v : Value) (t : Int) : Bool :=
  match v with
  | .num x => decide (t < (if x < 0 then -x else x))
  | _ => false

/-- `set.add` on the highlight set, kept as an ordered duplicate-free
list. -/
def addPair (h : List (String × Value)) (p : String × Value) : List (String × Value) :=
  if p ∈ h then h else h ++ [p]

/-- One `comparison_results` item of the highlight loop (lines 342-349). -/
def highlightEntry (opCol : Str) (threshold : Int) (hs : List (String × Value))
    (kv : ResultKey × DataFrame) : List (String × Value) :=
  let ddf := kv.2
  if diffColName ∈ ddf.columns then
    let exceeding := ddf.rows.filter (fun r => absGtB (rowCell ddf.columns r diffColName) threshold)
    if opCol ∈ ddf.columns then
      exceeding.foldl
        (fun h r =>
          addPair (addPair h (kv.1.2.1, rowCell ddf.columns r opCol))
            (kv.1.2.2, rowCell ddf.columns r opCol))
        hs
    else hs
  else hs

/-- Lines 339-349: the highlight set.  For every stored difference frame,
every row whose absolute difference strictly exceeds the threshold adds
`(reference file, key value)` and `(other file, key value)`. -/
def rows_to_highlight_map (results : List (ResultKey × DataFrame)) (opCol : Str) (threshold : Int) :
    List (String × Value) :=
  results.foldl (highlightEntry opCol threshold) []

/-- Occurrences of a key value in a value list (`countP` under decidable
equality, used to state join multiplicities). -/
def keyCount (vs : List Value) (v : Value) : Nat :=
  vs.countP (fun x => decide (x = v))

/-- A column name that does not end in either merge suffix, so that the
suffixed merged labels are unambiguous.  The spec's `ParsedTable` demands
unique column names; this additionally rules out names that collide with
the reserved `_REF`/`_OTH` suffixes. -/
def CleanName (s : Str) : Prop :=
  (∀ t, s ≠ t ++ sufREF) ∧ (∀ t, s ≠ t ++ sufOTH)

/-! ## General helper lemmas -/

theorem mem_readStep_foldl (fs : String → Option (List Nat)) :
    ∀ (paths : List String) (acc : List (String × DataFrame) × List (String × Str))
      (p : String) (df : DataFrame),
      (p, df) ∈ (paths.foldl (readStep fs) acc).1 →
      (p, df) ∈ acc.1 ∨ processFile (fs p) = .ok df := by
  intro paths
  induction paths with
  | nil => intro acc p df h; exact Or.inl h
  | cons q qs ih =>
    intro acc p df h
    rcases ih (readStep fs acc q) p df h with h' | h'
    · unfold readStep at h'
      rcases hq : processFile (fs q) with e | dfq <;> rw [hq] at h'
      · exact Or.inl h'
      · rcases List.mem_append.mp h' with h'' | h''
        · exact Or.inl h''
        · rcases List.mem_singleton.mp h'' with h''
          rcases Prod.mk.injEq .. ▸ h'' with ⟨rfl, rfl⟩
          exact Or.inr (by rw [hq])
    · exact Or.inr h'

/-! ## C4: binary rejection -/

/-- C4: a file whose first 1024 bytes contain a null byte is rejected by
`read_csv_files` with the fatal "binary" diagnostic — uniformly in the
remaining bytes, so no decoding of the content is consulted — and no
parsed table is ever produced for it. -/
theorem claim_c4_binary_rejected (bytes : List Nat)
    (h : (bytes.take 1024).contains 0 = true) :
    processFile (some bytes) = .error msgBinary ∧
    ∀ (paths : List String) (fs : String → Option (List Nat)) (p : String) (df : DataFrame),
      fs p = some bytes → (p, df) ∉ (read_csv_files paths fs).1 := by
  have hbin : isLikelyBinaryFromChunk bytes = true := h
  constructor
  · simp [processFile, hbin]
  · intro paths fs p df hfs hmem
    rcases mem_readStep_foldl fs paths ([], []) p df hmem with h' | h'
    · simp at h'
    · rw [hfs] at h'
      rw [show processFile (some bytes) = .error msgBinary by simp [processFile, hbin]] at h'
      exact Except.noConfusion h'

/-- Witness for C4 at the concrete one-byte file `[0]`. -/
theorem claim_c4_binary_rejected_witness :
    processFile (some [0]) = .error msgBinary ∧
    ∀ (paths : List String) (fs : String → Option (List Nat)) (p : String) (df : DataFrame),
      fs p = some [0] → (p, df) ∉ (read_csv_files paths fs).1 :=
  claim_c4_binary_rejected [0] (by decide)

/-! ## C8: deterministic parsing -/

/-- C8: parsing is deterministic — the per-file parse is a pure function
of the byte content, and `read_csv_files` is a pure function of the path
list and the stored bytes, so identical inputs give identical parsed
tables. -/
theorem claim_c8_deterministic :
    (∀ b₁ b₂ : List Nat, b₁ = b₂ → processFile (some b₁) = processFile (some b₂)) ∧
    (∀ (paths₁ paths₂ : List String) (fs fs' : String → Option (List Nat)),
      paths₁ = paths₂ → (∀ p, fs p = fs' p) →
      read_csv_files paths₁ fs = read_csv_files paths₂ fs') := by
  refine ⟨fun b₁ b₂ h => by rw [h], fun paths₁ paths₂ fs fs' hp hf => ?_⟩
  have : fs = fs' := funext hf
  rw [hp, this]

/-- Witness for C8 at a concrete byte content and filesystem. -/
theorem claim_c8_deterministic_witness :
    processFile (some (asciiBytes "id,v")) = processFile (some (asciiBytes "id,v")) :=
  claim_c8_deterministic.1 (asciiBytes "id,v") (asciiBytes "id,v") rfl

/-! ## C6: header-only parse and the zero-column diagnostic -/

/-- C6: the header-only input `"a,b,c"` parses to a three-column,
zero-row table (not a diagnostic), while a parse that produced a
zero-column (and hence zero-row) best candidate is finalized to the
distinct fatal "empty table with no columns" diagnostic. -/
theorem claim_c6_header_only :
    processFile (some (asciiBytes "a,b,c")) =
      .ok ⟨["a".toList, "b".toList, "c".toList], []⟩ ∧
    (∀ (bytes : List Nat) (df : DataFrame) (errs : List Str),
      df.columns = [] → df.rows = [] → finalizeBest bytes (some df) errs = .error msgEmptyNoCols) ∧
    msgEmptyNoCols ≠ msgCouldNotParse ∧ msgEmptyNoCols ≠ msgBinary := by
  refine ⟨by rfl, ?_, by decide, by decide⟩
  intro bytes df errs hc hr
  rcases df with ⟨cols, rows⟩
  simp only at hc hr
  subst hc; subst hr
  rfl

/-- Witness for C6's conditional part at the concrete empty candidate. -/
theorem claim_c6_header_only_witness :
    finalizeBest [] (some ⟨[], []⟩) [] = .error msgEmptyNoCols :=
  claim_c6_header_only.2.1 [] ⟨[], []⟩ [] rfl rfl

/-! ## C7: over-splitting correction -/

/-- Counterexample to C7 as stated: for the one-line file `"a:b"` the
best parse is multi-column (the `sep=None` sniffer picks `':'`, which is
not among the four common delimiter candidates) and the 5-line sample
contains none of the candidates, yet `read_csv_files` keeps the
two-column parse instead of re-parsing to a single column, because the
correction additionally requires at least one data row (line 134,
`shape[0] > 0`) and this parse has zero rows. -/
theorem claim_c7_counterexample :
    (encodingLoop encodingsToTry (asciiBytes "a:b") none []).1 =
      some ⟨["a".toList, "b".toList], []⟩ ∧
    sampleNoDelims (asciiBytes "a:b") = true ∧
    processFile (some (asciiBytes "a:b")) = .ok ⟨["a".toList, "b".toList], []⟩ ∧
    ¬ ∃ sc : DataFrame, processFile (some (asciiBytes "a:b")) = .ok sc ∧ sc.columns.length = 1 := by
  refine ⟨by rfl, by rfl, by rfl, ?_⟩
  rintro ⟨sc, h1, h2⟩
  rw [show processFile (some (asciiBytes "a:b")) =
        .ok (⟨["a".toList, "b".toList], []⟩ : DataFrame) from rfl] at h1
  cases h1
  cases h2

/-- C7 (amended): if the best parse of a file is multi-column AND has at
least one data row, the binary check passed, the joined 5-line sample
contains none of the common delimiter candidates, and the single-column
re-parse succeeds, then `read_csv_files` discards the multi-column split
and returns the single-`data`-column re-parse of the raw lines. -/
theorem claim_c7_amended (bytes : List Nat) (df : DataFrame) (errs : List Str) (sc : DataFrame)
    (hbin : isLikelyBinaryFromChunk bytes = false)
    (hloop : encodingLoop encodingsToTry bytes none [] = (some df, errs))
    (hcols : 1 < df.columns.length) (hrows : 0 < df.rows.length)
    (hsample : sampleNoDelims bytes = true)
    (hsc : singleColReparse bytes = some sc) :
    processFile (some bytes) = .ok sc ∧ sc.columns = [dataColName] := by
  have hsccols : sc.columns = [dataColName] := by
    unfold singleColReparse at hsc
    rcases hdec : decode .utf8sig bytes with _ | text <;> rw [hdec] at hsc
    · exact Option.noConfusion hsc
    · simp only at hsc
      split at hsc
      · exact Option.noConfusion hsc
      · cases hsc; rfl
  have hover : overSplitCorrect bytes df = sc := by
    unfold overSplitCorrect
    rw [if_pos ⟨hcols, hrows⟩, if_pos hsample, hsc]
    simp [hsccols]
  refine ⟨?_, hsccols⟩
  have h1 : processFile (some bytes) =
      finalizeBest bytes (encodingLoop encodingsToTry bytes none []).1
        (encodingLoop encodingsToTry bytes none []).2 := by
    simp [processFile, hbin]
  have h2 : finalizeBest bytes (some df) errs =
      (if (overSplitCorrect bytes df).isEmptyDf ∧ (overSplitCorrect bytes df).columns.length = 0
       then Except.error msgEmptyNoCols else Except.ok (overSplitCorrect bytes df)) := rfl
  rw [h1, hloop]
  simp only [h2, hover]
  rw [if_neg (by simp [hsccols])]

/-- Witness for the amended C7 at the concrete file
`"hello world\nfoo bar"` (space-split by the sniffer, no common
delimiter in the sample). -/
theorem claim_c7_amended_witness :
    processFile (some (asciiBytes "hello world\nfoo bar")) =
      .ok ⟨[dataColName], [[Value.str "hello world".toList], [Value.str "foo bar".toList]]⟩ ∧
    (⟨[dataColName], [[Value.str "hello world".toList], [Value.str "foo bar".toList]]⟩ :
      DataFrame).columns = [dataColName] :=
  claim_c7_amended (asciiBytes "hello world\nfoo bar")
    ⟨["hello".toList, "world".toList], [[Value.str "foo".toList, Value.str "bar".toList]]⟩ []
    ⟨[dataColName], [[Value.str "hello world".toList], [Value.str "foo bar".toList]]⟩
    (by rfl) (by rfl) (by decide) (by decide) (by rfl) (by rfl)

/-! ## C2: highlight derivation is strict -/

theorem mem_addPair (h : List (String × Value)) (p q : String × Value) :
    q ∈ addPair h p ↔ q ∈ h ∨ q = p := by
  unfold addPair
  split
  · rename_i hp
    constructor
    · exact fun hq => Or.inl hq
    · rintro (hq | rfl)
      · exact hq
      · exact hp
  · simp [List.mem_append]

theorem mem_highlight_rowFold (cols : List Str) (opCol : Str) (n1 n2 : String) :
    ∀ (rows : List (List Value)) (hs : List (String × Value)) (q : String × Value),
      q ∈ rows.foldl
          (fun h r => addPair (addPair h (n1, rowCell cols r opCol)) (n2, rowCell cols r opCol)) hs ↔
        q ∈ hs ∨ ∃ r ∈ rows, q = (n1, rowCell cols r opCol) ∨ q = (n2, rowCell cols r opCol) := by
  intro rows
  induction rows with
  | nil => simp
  | cons r rs ih =>
    intro hs q
    rw [List.foldl_cons, ih]
    simp only [mem_addPair, List.mem_cons]
    aesop

theorem mem_highlightEntry (opCol : Str) (t : Int) (hs : List (String × Value))
    (kv : ResultKey × DataFrame) (q : String × Value) :
    q ∈ highlightEntry opCol t hs kv ↔
      q ∈ hs ∨ (diffColName ∈ kv.2.columns ∧ opCol ∈ kv.2.columns ∧
        ∃ r ∈ kv.2.rows, absGtB (rowCell kv.2.columns r diffColName) t = true ∧
          (q = (kv.1.2.1, rowCell kv.2.columns r opCol) ∨
           q = (kv.1.2.2, rowCell kv.2.columns r opCol))) := by
  unfold highlightEntry
  dsimp only
  split
  · rename_i hd
    split
    · rename_i ho
      rw [mem_highlight_rowFold]
      constructor
      · rintro (hq | ⟨r, hr, hq⟩)
        · exact Or.inl hq
        · rcases List.mem_filter.mp hr with ⟨hrm, hgt⟩
          exact Or.inr ⟨hd, ho, r, hrm, hgt, hq⟩
      · rintro (hq | ⟨_, _, r, hrm, hgt, hq⟩)
        · exact Or.inl hq
        · exact Or.inr ⟨r, List.mem_filter.mpr ⟨hrm, hgt⟩, hq⟩
    · rename_i ho
      constructor
      · exact fun hq => Or.inl hq
      · rintro (hq | ⟨_, ho', _⟩)
        · exact hq
        · exact absurd ho' ho
  · rename_i hd
    constructor
    · exact fun hq => Or.inl hq
    · rintro (hq | ⟨hd', _⟩)
      · exact hq
      · exact absurd hd' hd

theorem mem_highlight_foldl (opCol : Str) (t : Int) :
    ∀ (results : List (ResultKey × DataFrame)) (hs : List (String × Value)) (q : String × Value),
      q ∈ results.foldl (highlightEntry opCol t) hs ↔
        q ∈ hs ∨ ∃ kv ∈ results, diffColName ∈ kv.2.columns ∧ opCol ∈ kv.2.columns ∧
          ∃ r ∈ kv.2.rows, absGtB (rowCell kv.2.columns r diffColName) t = true ∧
            (q = (kv.1.2.1, rowCell kv.2.columns r opCol) ∨
             q = (kv.1.2.2, rowCell kv.2.columns r opCol)) := by
  intro results
  induction results with
  | nil =>
    intro hs q
    constructor
    · exact fun h => Or.inl h
    · rintro (h | ⟨kv, hkv, _⟩)
      · exact h
      · exact absurd hkv (List.not_mem_nil kv)
  | cons kv kvs ih =>
    intro hs q
    rw [List.foldl_cons, ih, mem_highlightEntry]
    constructor
    · rintro ((hq | hkv) | ⟨kv', hkv', hrest⟩)
      · exact Or.inl hq
      · exact Or.inr ⟨kv, List.mem_cons_self kv kvs, hkv⟩
      · exact Or.inr ⟨kv', List.mem_cons_of_mem _ hkv', hrest⟩
    · rintro (hq | ⟨kv', hkv', hrest⟩)
      · exact Or.inl (Or.inl hq)
      · rcases List.mem_cons.mp hkv' with rfl | hkv'
        · exact Or.inl (Or.inr hrest)
        · exact Or.inr ⟨kv', hkv', hrest⟩

/-- C2: membership in the highlight set is characterized by the strict
threshold comparison — `(file, key value)` is added for both sides of a
pair if and only if some stored difference entry for that key has
absolute difference strictly greater than the threshold; a difference
exactly equal to the threshold never satisfies the comparison. -/
theorem claim_c2_highlight_strict (results : List (ResultKey × DataFrame)) (opCol : Str)
    (t : Int) (f : String) (v : Value) :
    ((f, v) ∈ rows_to_highlight_map results opCol t ↔
      ∃ kv ∈ results, diffColName ∈ kv.2.columns ∧ opCol ∈ kv.2.columns ∧
        ∃ r ∈ kv.2.rows, absGtB (rowCell kv.2.columns r diffColName) t = true ∧
          rowCell kv.2.columns r opCol = v ∧ (f = kv.1.2.1 ∨ f = kv.1.2.2)) ∧
    (∀ x : Int, (if x < 0 then -x else x) = t → absGtB (.num x) t = false) := by
  constructor
  · unfold rows_to_highlight_map
    rw [mem_highlight_foldl]
    simp only [List.not_mem_nil, false_or, Prod.mk.injEq]
    constructor
    · rintro ⟨kv, hkv, hd, ho, r, hr, hgt, ⟨rfl, rfl⟩ | ⟨rfl, rfl⟩⟩
      · exact ⟨kv, hkv, hd, ho, r, hr, hgt, rfl, Or.inl rfl⟩
      · exact ⟨kv, hkv, hd, ho, r, hr, hgt, rfl, Or.inr rfl⟩
    · rintro ⟨kv, hkv, hd, ho, r, hr, hgt, rfl, rfl | rfl⟩
      · exact ⟨kv, hkv, hd, ho, r, hr, hgt, Or.inl ⟨rfl, rfl⟩⟩
      · exact ⟨kv, hkv, hd, ho, r, hr, hgt, Or.inr ⟨rfl, rfl⟩⟩
  · intro x hx
    simp [absGtB, hx]

/-- Witness for C2's threshold-equality part: a difference of exactly 3
is not highlighted at threshold 3. -/
theorem claim_c2_highlight_strict_witness : absGtB (Value.num 3) 3 = false :=
  (claim_c2_highlight_strict [] ([] : Str) 3 "f" Value.nan).2 3 rfl

/-! ## Validator lemmas -/

theorem zipWith_self_map {α β γ : Type} (f : α → β → γ) (g : α → β) :
    ∀ l : List α, List.zipWith f l (l.map g) = l.map (fun x => f x (g x)) := by
  intro l
  induction l with
  | nil => rfl
  | cons x xs ih => simp [ih]

theorem zipWith_map_map {α β γ δ : Type} (f : β → γ → δ) (g : α → β) (h : α → γ) :
    ∀ l : List α, List.zipWith f (l.map g) (l.map h) = l.map (fun x => f (g x) (h x)) := by
  intro l
  induction l with
  | nil => rfl
  | cons x xs ih => simp [ih]

theorem coerce_isNa_of_isNa (w : Value) (h : w.isNa = true) : (coerceNumeric w).isNa = true := by
  cases w <;> simp_all [coerceNumeric, Value.isNa]

theorem coerce_numOrNa (v : Value) : ((coerceNumeric v).isNum || (coerceNumeric v).isNa) = true := by
  cases v with
  | num x => rfl
  | nan => rfl
  | str s =>
    simp only [coerceNumeric]
    rcases h : toIntOpt s with _ | n <;> rfl

theorem map_coerce_of_numeric (cells : List Value) (h : isNumericDtype cells = true) :
    cells.map coerceNumeric = cells := by
  unfold isNumericDtype at h
  rw [Bool.and_eq_true, List.all_eq_true] at h
  have hpt : ∀ v ∈ cells, coerceNumeric v = id v := by
    intro v hv
    rcases h with ⟨-, h2⟩
    have := h2 v hv
    cases v with
    | num x => rfl
    | nan => rfl
    | str s => simp [Value.isNum, Value.isNa] at this
  rw [List.map_congr_left hpt, List.map_id]

theorem rowCell_setRow (c : Str) (v : Value) :
    ∀ (cols : List Str) (r : List Value), (rowCell cols r c).isNa = false →
      rowCell cols (setRow cols r c v) c = v := by
  intro cols
  induction cols with
  | nil => intro r h; simp [rowCell, Value.isNa] at h
  | cons c0 cs ih =>
    intro r h
    cases r with
    | nil => simp [rowCell, Value.isNa] at h
    | cons x xs =>
      by_cases hc : c0 = c
      · simp [rowCell, setRow, hc]
      · simp only [rowCell, setRow, if_neg hc] at h ⊢
        exact ih xs h

theorem colD_setCol_map_coerce (df : DataFrame) (c : Str)
    (hno : ((colD df c).map coerceNumeric).any (fun v => v.isNa) = false) :
    colD (setCol df c ((colD df c).map coerceNumeric)) c = (colD df c).map coerceNumeric := by
  have hvals : ∀ r ∈ df.rows, (coerceNumeric (rowCell df.columns r c)).isNa = false := by
    intro r hr
    by_contra hcon
    rw [Bool.not_eq_false] at hcon
    have hmem : (coerceNumeric (rowCell df.columns r c)) ∈ (colD df c).map coerceNumeric := by
      unfold colD
      rw [List.map_map]
      exact List.mem_map.mpr ⟨r, hr, rfl⟩
    rw [List.any_eq_false] at hno
    exact (hno _ hmem) hcon
  unfold setCol colD
  simp only
  rw [List.map_map, zipWith_self_map, List.map_map]
  apply List.map_congr_left
  intro r hr
  simp only [Function.comp]
  have hw : (rowCell df.columns r c).isNa = false := by
    by_contra hcon
    rw [Bool.not_eq_false] at hcon
    have := coerce_isNa_of_isNa _ hcon
    rw [hvals r hr] at this
    exact Bool.noConfusion this
  exact rowCell_setRow c _ df.columns r hw

theorem colD_rows_nil (df : DataFrame) (c : Str) (h : df.rows = []) : colD df c = [] := by
  unfold colD
  rw [h]
  rfl

theorem rows_setCol_map_coerce (df : DataFrame) (c : Str) :
    (setCol df c ((colD df c).map coerceNumeric)).rows.length = df.rows.length := by
  unfold setCol colD
  simp only
  rw [List.map_map, zipWith_self_map, List.length_map]

/-- `validateOne` as a flat decision tree (the duplicated NaN check at
line 197 is absorbed: in the successful coercion branch its condition is
the just-tested one). -/
theorem validateOne_eq (df : DataFrame) (opCol : Str) :
    validateOne df opCol =
      if opCol ∈ df.columns then
        if isNumericDtype (colD df opCol) then
          if (colD df opCol).any (fun v => v.isNa) then .error msgKeyNaN
          else if (numericColsOf df opCol).isEmpty then .error msgNoNumericCols
          else .ok (df, numericColsOf df opCol)
        else
          if ((colD df opCol).map coerceNumeric).all (fun v => v.isNa) ∧
              0 < ((colD df opCol).filter (fun v => !v.isNa)).length then .error msgDataLoss
          else if ((colD df opCol).map coerceNumeric).any (fun v => v.isNa) then .error msgCoercedNaN
          else
            if (numericColsOf (setCol df opCol ((colD df opCol).map coerceNumeric)) opCol).isEmpty then
              .error msgNoNumericCols
            else
              .ok (setCol df opCol ((colD df opCol).map coerceNumeric),
                numericColsOf (setCol df opCol ((colD df opCol).map coerceNumeric)) opCol)
      else .error msgOpColNotFound := by
  unfold validateOne
  by_cases h1 : opCol ∈ df.columns
  · by_cases h2 : isNumericDtype (colD df opCol) = true
    · simp only [if_pos h1, if_pos h2]
    · by_cases h3 : ((colD df opCol).map coerceNumeric).all (fun v => v.isNa) = true ∧
          0 < ((colD df opCol).filter (fun v => !v.isNa)).length
      · simp only [if_pos h1, if_neg h2, if_pos h3]
      · by_cases h4 : ((colD df opCol).map coerceNumeric).any (fun v => v.isNa) = true
        · simp only [if_pos h1, if_neg h2, if_neg h3, if_pos h4]
        · simp only [if_pos h1, if_neg h2, if_neg h3, if_neg h4]
  · simp only [if_neg h1]

theorem validateOne_ok_numeric (df df2 : DataFrame) (opCol : Str) (ncols : List Str)
    (h : validateOne df opCol = .ok (df2, ncols)) :
    isNumericDtype (colD df2 opCol) = true ∧
    (colD df2 opCol).any (fun v => v.isNa) = false ∧
    df2.rows.length = df.rows.length := by
  rw [validateOne_eq] at h
  by_cases h1 : opCol ∈ df.columns
  · rw [if_pos h1] at h
    by_cases h2 : isNumericDtype (colD df opCol) = true
    · rw [if_pos h2] at h
      by_cases h3 : (colD df opCol).any (fun v => v.isNa) = true
      · rw [if_pos h3] at h; exact Except.noConfusion h
      · rw [if_neg h3] at h
        by_cases h4 : (numericColsOf df opCol).isEmpty = true
        · rw [if_pos h4] at h; exact Except.noConfusion h
        · rw [if_neg h4] at h
          rw [Except.ok.injEq, Prod.mk.injEq] at h
          rcases h with ⟨h5, h6⟩
          subst h5
          exact ⟨h2, Bool.eq_false_iff.mpr h3, rfl⟩
    · rw [if_neg h2] at h
      by_cases h3 : ((colD df opCol).map coerceNumeric).all (fun v => v.isNa) = true ∧
          0 < ((colD df opCol).filter (fun v => !v.isNa)).length
      · rw [if_pos h3] at h; exact Except.noConfusion h
      · rw [if_neg h3] at h
        by_cases h4 : ((colD df opCol).map coerceNumeric).any (fun v => v.isNa) = true
        · rw [if_pos h4] at h; exact Except.noConfusion h
        · rw [if_neg h4] at h
          by_cases h5 : (numericColsOf (setCol df opCol ((colD df opCol).map coerceNumeric)) opCol).isEmpty = true
          · rw [if_pos h5] at h; exact Except.noConfusion h
          · rw [if_neg h5] at h
            rw [Except.ok.injEq, Prod.mk.injEq] at h
            rcases h with ⟨h6, h7⟩
            subst h6
            have hcol := colD_setCol_map_coerce df opCol (Bool.eq_false_iff.mpr h4)
            refine ⟨?_, ?_, rows_setCol_map_coerce df opCol⟩
            · rw [hcol]
              unfold isNumericDtype
              rw [Bool.and_eq_true]
              constructor
              · have hlen : (setCol df opCol ((colD df opCol).map coerceNumeric)).rows.length
                    = df.rows.length := rows_setCol_map_coerce df opCol
                rcases hrows : df.rows with _ | ⟨r, rs⟩
                · exfalso
                  apply h5
                  have hzero : (setCol df opCol ((colD df opCol).map coerceNumeric)).rows = [] := by
                    rw [← List.length_eq_zero, hlen, hrows]
                    rfl
                  unfold numericColsOf
                  rw [List.isEmpty_iff, List.filter_eq_nil_iff]
                  intro c hc
                  rw [Bool.not_eq_true, Bool.and_eq_false_iff]
                  right
                  rw [colD_rows_nil _ c hzero]
                  rfl
                · rw [Bool.not_eq_true']
                  have hcons : colD df opCol =
                      rowCell df.columns r opCol :: rs.map (fun x => rowCell df.columns x opCol) := by
                    unfold colD
                    rw [hrows]
                    rfl
                  rw [hcons]
                  rfl
              · rw [List.all_eq_true]
                intro v hv
                rcases List.mem_map.mp hv with ⟨w, hw, rfl⟩
                exact coerce_numOrNa w
            · rw [hcol]
              exact Bool.eq_false_iff.mpr h4
  · rw [if_neg h1] at h; exact Except.noConfusion h

/-- C3: if, after numeric coercion of the key column, any missing value
remains, `validate_dataframes_for_processing` rejects the table with one
of the NaN diagnostics (the table is not silently fixed up); every table
it does return has a key column of numeric dtype with zero missing
values, with no row dropped. -/
theorem claim_c3_missing_key_rejected (df : DataFrame) (opCol : Str)
    (hop : opCol ∈ df.columns) :
    (((colD df opCol).map coerceNumeric).any (fun v => v.isNa) = true →
      ∃ m, validateOne df opCol = .error m ∧
        (m = msgDataLoss ∨ m = msgCoercedNaN ∨ m = msgKeyNaN)) ∧
    (∀ (df2 : DataFrame) (ncols : List Str), validateOne df opCol = .ok (df2, ncols) →
      isNumericDtype (colD df2 opCol) = true ∧
      (colD df2 opCol).any (fun v => v.isNa) = false ∧
      df2.rows.length = df.rows.length) ∧
    (∀ (items : List (String × DataFrame)) (e : ValidatedEntry),
      e ∈ (validate_dataframes_for_processing items opCol).1 →
      isNumericDtype (colD e.dataframe opCol) = true ∧
      (colD e.dataframe opCol).any (fun v => v.isNa) = false) := by
  have hlist : ∀ (items : List (String × DataFrame))
      (acc : List ValidatedEntry × List (String × Str)) (e : ValidatedEntry),
      e ∈ (items.foldl (validateStep opCol) acc).1 →
      e ∈ acc.1 ∨ ∃ df0, validateOne df0 opCol = .ok (e.dataframe, e.numeric_columns) := by
    intro items
    induction items with
    | nil => intro acc e h; exact Or.inl h
    | cons it its ih =>
      intro acc e h
      rcases ih (validateStep opCol acc it) e h with h' | h'
      · unfold validateStep at h'
        rcases hv : validateOne it.2 opCol with m | pr <;> rw [hv] at h'
        · exact Or.inl h'
        · rcases List.mem_append.mp h' with h'' | h''
          · exact Or.inl h''
          · rcases List.mem_singleton.mp h'' with rfl
            exact Or.inr ⟨it.2, by rw [hv]⟩
      · exact Or.inr h'
  refine ⟨?_, ?_, ?_⟩
  · intro hany
    rw [validateOne_eq, if_pos hop]
    by_cases h2 : isNumericDtype (colD df opCol) = true
    · rw [if_pos h2]
      have hany' : (colD df opCol).any (fun v => v.isNa) = true := by
        rw [map_coerce_of_numeric _ h2] at hany
        exact hany
      rw [if_pos hany']
      exact ⟨msgKeyNaN, rfl, Or.inr (Or.inr rfl)⟩
    · rw [if_neg h2]
      by_cases h3 : ((colD df opCol).map coerceNumeric).all (fun v => v.isNa) = true ∧
          0 < ((colD df opCol).filter (fun v => !v.isNa)).length
      · rw [if_pos h3]
        exact ⟨msgDataLoss, rfl, Or.inl rfl⟩
      · rw [if_neg h3, if_pos hany]
        exact ⟨msgCoercedNaN, rfl, Or.inr (Or.inl rfl)⟩
  · exact fun df2 ncols h => validateOne_ok_numeric df df2 opCol ncols h
  · intro items e he
    rcases hlist items ([], []) e he with h' | ⟨df0, h'⟩
    · simp at h'
    · have := validateOne_ok_numeric df0 e.dataframe opCol e.numeric_columns h'
      exact ⟨this.1, this.2.1⟩

/-- Witness for C3 at the concrete key column `[1, NaN, 3]`. -/
theorem claim_c3_missing_key_rejected_witness :
    (∃ m, validateOne ⟨["id".toList, "v".toList],
        [[Value.num 1, Value.num 10], [Value.nan, Value.num 20], [Value.num 3, Value.num 30]]⟩
        "id".toList = .error m ∧
      (m = msgDataLoss ∨ m = msgCoercedNaN ∨ m = msgKeyNaN)) :=
  (claim_c3_missing_key_rejected
    ⟨["id".toList, "v".toList],
      [[Value.num 1, Value.num 10], [Value.nan, Value.num 20], [Value.num 3, Value.num 30]]⟩
    "id".toList (by decide)).1 (by decide)

/-! ## C9: the validator never mutates its input -/

theorem validateOne_ok_copyFinal (df : DataFrame) (opCol : Str) (pr : DataFrame × List Str)
    (h : validateOne df opCol = .ok pr) : pr.1 = validateCopyFinal df opCol := by
  rw [validateOne_eq] at h
  unfold validateCopyFinal
  by_cases h1 : opCol ∈ df.columns
  · rw [if_pos h1] at h
    simp only [if_pos h1]
    by_cases h2 : isNumericDtype (colD df opCol) = true
    · rw [if_pos h2] at h
      simp only [if_pos h2]
      by_cases h3 : (colD df opCol).any (fun v => v.isNa) = true
      · rw [if_pos h3] at h; exact Except.noConfusion h
      · rw [if_neg h3] at h
        by_cases h4 : (numericColsOf df opCol).isEmpty = true
        · rw [if_pos h4] at h; exact Except.noConfusion h
        · rw [if_neg h4] at h
          rw [Except.ok.injEq] at h
          rw [← h]
    · rw [if_neg h2] at h
      simp only [if_neg h2]
      by_cases h3 : ((colD df opCol).map coerceNumeric).all (fun v => v.isNa) = true ∧
          0 < ((colD df opCol).filter (fun v => !v.isNa)).length
      · rw [if_pos h3] at h; exact Except.noConfusion h
      · rw [if_neg h3] at h
        simp only [if_neg h3]
        by_cases h4 : ((colD df opCol).map coerceNumeric).any (fun v => v.isNa) = true
        · rw [if_pos h4] at h; exact Except.noConfusion h
        · rw [if_neg h4] at h
          by_cases h5 : (numericColsOf (setCol df opCol ((colD df opCol).map coerceNumeric)) opCol).isEmpty = true
          · rw [if_pos h5] at h; exact Except.noConfusion h
          · rw [if_neg h5] at h
            rw [Except.ok.injEq] at h
            rw [← h]
  · rw [if_neg h1] at h; exact Except.noConfusion h

/-- C9: the validator never mutates its input table.  In the
heap-instrumented model, the input cell is unchanged by the call, the
returned `ValidatedTable` lives in a freshly allocated cell (the
`.copy()` of line 169), and the successfully validated table is exactly
the copy with the coerced key column written back (line 189) — so
re-coercion yields a new table, never an in-place update of the
caller's `ParsedTable`. -/
theorem claim_c9_no_input_mutation (heap : List DataFrame) (r : Nat) (opCol : Str)
    (h : r < heap.length) :
    ((validateOneHeap heap r opCol).1.getD r ⟨[], []⟩ = heap.getD r ⟨[], []⟩) ∧
    (∀ (i : Nat) (ncols : List Str), (validateOneHeap heap r opCol).2 = .ok (i, ncols) →
      i = heap.length ∧ i ≠ r ∧
      (validateOneHeap heap r opCol).1.getD i ⟨[], []⟩ =
        validateCopyFinal (heap.getD r ⟨[], []⟩) opCol) ∧
    (∀ (df : DataFrame) (pr : DataFrame × List Str), validateOne df opCol = .ok pr →
      pr.1 = validateCopyFinal df opCol) := by
  refine ⟨?_, ?_, fun df pr hpr => validateOne_ok_copyFinal df opCol pr hpr⟩
  · unfold validateOneHeap
    exact List.getD_append _ _ _ _ h
  · intro i ncols hok
    unfold validateOneHeap at hok
    simp only [Except.map] at hok
    rcases hv : validateOne (heap.getD r ⟨[], []⟩) opCol with m | pr <;> rw [hv] at hok
    · exact Except.noConfusion hok
    · rw [Except.ok.injEq, Prod.mk.injEq] at hok
      rcases hok with ⟨h1, h2⟩
      subst h1
      refine ⟨rfl, Nat.ne_of_gt h, ?_⟩
      unfold validateOneHeap
      rw [List.getD_append_right _ _ _ _ (Nat.le_refl _), Nat.sub_self]
      rfl

/-- Witness for C9 at a concrete one-cell heap. -/
theorem claim_c9_no_input_mutation_witness :
    ((validateOneHeap [⟨["id".toList], [[Value.num 1]]⟩] 0 "id".toList).1.getD 0 ⟨[], []⟩ =
      [(⟨["id".toList], [[Value.num 1]]⟩ : DataFrame)].getD 0 ⟨[], []⟩) ∧
    (∀ (i : Nat) (ncols : List Str),
      (validateOneHeap [⟨["id".toList], [[Value.num 1]]⟩] 0 "id".toList).2 = .ok (i, ncols) →
      i = [(⟨["id".toList], [[Value.num 1]]⟩ : DataFrame)].length ∧ i ≠ 0 ∧
      (validateOneHeap [⟨["id".toList], [[Value.num 1]]⟩] 0 "id".toList).1.getD i ⟨[], []⟩ =
        validateCopyFinal ([(⟨["id".toList], [[Value.num 1]]⟩ : DataFrame)].getD 0 ⟨[], []⟩)
          "id".toList) ∧
    (∀ (df : DataFrame) (pr : DataFrame × List Str), validateOne df "id".toList = .ok pr →
      pr.1 = validateCopyFinal df "id".toList) :=
  claim_c9_no_input_mutation [⟨["id".toList], [[Value.num 1]]⟩] 0 "id".toList (by decide)

/-! ## C5: warnings are additive, processing never aborts -/

theorem stepColumn_warnings (merged : DataFrame) (opCol : Str) (rn othName : String)
    (acc : List (ResultKey × DataFrame) × List CompWarning) (c : Str) :
    ∃ δ, (stepColumn merged opCol rn othName acc c).2 = acc.2 ++ δ := by
  unfold stepColumn
  by_cases h1 : (c ++ sufREF) ∈ merged.columns
  · rw [if_pos h1]
    by_cases h2 : (c ++ sufOTH) ∈ merged.columns
    · rw [if_pos h2]
      by_cases h3 : (isNumericDtype (colD merged (c ++ sufREF)) &&
          isNumericDtype (colD merged (c ++ sufOTH))) = true
      · rw [if_pos h3]
        exact ⟨[], (List.append_nil _).symm⟩
      · rw [if_neg h3]
        exact ⟨[wDataType], rfl⟩
    · rw [if_neg h2]
      exact ⟨[wColMissing], rfl⟩
  · rw [if_neg h1]
    exact ⟨[wInternal], rfl⟩

theorem colFold_warnings (merged : DataFrame) (opCol : Str) (rn othName : String) :
    ∀ (cs : List Str) (acc : List (ResultKey × DataFrame) × List CompWarning),
      ∃ δ, ((cs.foldl (stepColumn merged opCol rn othName) acc).2 = acc.2 ++ δ) := by
  intro cs
  induction cs with
  | nil => exact fun acc => ⟨[], (List.append_nil _).symm⟩
  | cons c cs' ih =>
    intro acc
    rcases stepColumn_warnings merged opCol rn othName acc c with ⟨δ1, h1⟩
    rcases ih (stepColumn merged opCol rn othName acc c) with ⟨δ2, h2⟩
    exact ⟨δ1 ++ δ2, by rw [List.foldl_cons, h2, h1, List.append_assoc]⟩

theorem stepPair_warnings (refE : ValidatedEntry) (opCol : Str)
    (acc : List (ResultKey × DataFrame) × List CompWarning) (othE : ValidatedEntry) :
    ∃ δ, (stepPair refE opCol acc othE).2 = acc.2 ++ δ := by
  unfold stepPair
  dsimp only
  rcases hsel1 : dfSelect refE.dataframe (selectionCols refE.dataframe refE.numeric_columns opCol)
      with _ | lsel
  · exact ⟨[wMergeError], rfl⟩
  · rcases hsel2 : dfSelect othE.dataframe (selectionCols othE.dataframe othE.numeric_columns opCol)
        with _ | rsel
    · exact ⟨[wMergeError], rfl⟩
    · dsimp only
      by_cases hemp : (mergeInner lsel rsel opCol).rows.isEmpty = true
      · rw [if_pos hemp]
        exact ⟨[wMergeEmpty], rfl⟩
      · rw [if_neg hemp]
        exact colFold_warnings _ _ _ _ _ acc

theorem pairLoop_warnings (refE : ValidatedEntry) (opCol : Str) :
    ∀ (others : List ValidatedEntry) (acc : List (ResultKey × DataFrame) × List CompWarning),
      ∃ δ, ((others.foldl (stepPair refE opCol) acc).2 = acc.2 ++ δ) := by
  intro others
  induction others with
  | nil => exact fun acc => ⟨[], (List.append_nil _).symm⟩
  | cons o os ih =>
    intro acc
    rcases stepPair_warnings refE opCol acc o with ⟨δ1, h1⟩
    rcases ih (stepPair refE opCol acc o) with ⟨δ2, h2⟩
    exact ⟨δ1 ++ δ2, by rw [List.foldl_cons, h2, h1, List.append_assoc]⟩

theorem dictInsert_preserve (k k' : ResultKey) (v v' : DataFrame)
    (res : List (ResultKey × DataFrame)) (hne : k' ≠ k) (hmem : (k', v') ∈ res) :
    (k', v') ∈ dictInsert k v res := by
  unfold dictInsert
  split
  · exact List.mem_map.mpr ⟨(k', v'), hmem, by rw [if_neg hne]⟩
  · exact List.mem_append.mpr (Or.inl hmem)

theorem stepColumn_preserve (merged : DataFrame) (opCol : Str) (rn othName : String)
    (acc : List (ResultKey × DataFrame) × List CompWarning) (c : Str)
    (k : ResultKey) (ddf : DataFrame) (hne : k.2.2 ≠ othName) (hmem : (k, ddf) ∈ acc.1) :
    (k, ddf) ∈ (stepColumn merged opCol rn othName acc c).1 := by
  unfold stepColumn
  split
  · split
    · split
      · exact dictInsert_preserve _ _ _ _ _ (fun hk => hne (by rw [hk])) hmem
      · exact hmem
    · exact hmem
  · exact hmem

theorem colFold_preserve (merged : DataFrame) (opCol : Str) (rn othName : String) :
    ∀ (cs : List Str) (acc : List (ResultKey × DataFrame) × List CompWarning)
      (k : ResultKey) (ddf : DataFrame), k.2.2 ≠ othName → (k, ddf) ∈ acc.1 →
      (k, ddf) ∈ ((cs.foldl (stepColumn merged opCol rn othName) acc).1) := by
  intro cs
  induction cs with
  | nil => exact fun acc k ddf _ hmem => hmem
  | cons c cs' ih =>
    intro acc k ddf hne hmem
    exact ih _ k ddf hne (stepColumn_preserve merged opCol rn othName acc c k ddf hne hmem)

theorem stepPair_preserve (refE : ValidatedEntry) (opCol : Str)
    (acc : List (ResultKey × DataFrame) × List CompWarning) (othE : ValidatedEntry)
    (k : ResultKey) (ddf : DataFrame) (hne : k.2.2 ≠ othE.filename) (hmem : (k, ddf) ∈ acc.1) :
    (k, ddf) ∈ (stepPair refE opCol acc othE).1 := by
  unfold stepPair
  dsimp only
  rcases hsel1 : dfSelect refE.dataframe (selectionCols refE.dataframe refE.numeric_columns opCol)
      with _ | lsel
  · exact hmem
  · rcases hsel2 : dfSelect othE.dataframe (selectionCols othE.dataframe othE.numeric_columns opCol)
        with _ | rsel
    · exact hmem
    · dsimp only
      by_cases hemp : (mergeInner lsel rsel opCol).rows.isEmpty = true
      · rw [if_pos hemp]
        exact hmem
      · rw [if_neg hemp]
        exact colFold_preserve _ _ _ _ _ acc k ddf hne hmem

theorem pairLoop_preserve (refE : ValidatedEntry) (opCol : Str) :
    ∀ (others : List ValidatedEntry) (acc : List (ResultKey × DataFrame) × List CompWarning)
      (k : ResultKey) (ddf : DataFrame),
      k.2.2 ∉ others.map ValidatedEntry.filename → (k, ddf) ∈ acc.1 →
      (k, ddf) ∈ ((others.foldl (stepPair refE opCol) acc).1) := by
  intro others
  induction others with
  | nil => exact fun acc k ddf _ hmem => hmem
  | cons o os ih =>
    intro acc k ddf hne hmem
    rw [List.map_cons, List.mem_cons] at hne
    push_neg at hne
    exact ih _ k ddf hne.2 (stepPair_preserve refE opCol acc o k ddf hne.1 hmem)

/-- C5: in the comparison engine every per-pair and per-column problem
only appends a warning: the warning list only ever grows (per pair step
and over the whole loop), the loop is compositional over the pair list
(no problem aborts the processing of the remaining pairs or columns),
and a difference series already stored is still present afterwards as
long as no later pair re-uses the same other-file name (re-using a file
name makes the Python dict overwrite that key, which is a dict effect,
not a warning-branch effect). -/
theorem claim_c5_warnings_additive (refE : ValidatedEntry) (opCol : Str) :
    (∀ (acc : List (ResultKey × DataFrame) × List CompWarning) (othE : ValidatedEntry),
      ∃ δ, (stepPair refE opCol acc othE).2 = acc.2 ++ δ) ∧
    (∀ (others : List ValidatedEntry) (acc : List (ResultKey × DataFrame) × List CompWarning),
      ∃ δ, ((others.foldl (stepPair refE opCol) acc).2 = acc.2 ++ δ)) ∧
    (∀ (others₁ others₂ : List ValidatedEntry)
      (acc : List (ResultKey × DataFrame) × List CompWarning),
      (others₁ ++ others₂).foldl (stepPair refE opCol) acc =
        others₂.foldl (stepPair refE opCol) (others₁.foldl (stepPair refE opCol) acc)) ∧
    (∀ (others : List ValidatedEntry) (acc : List (ResultKey × DataFrame) × List CompWarning)
      (k : ResultKey) (ddf : DataFrame),
      (k, ddf) ∈ acc.1 → k.2.2 ∉ others.map ValidatedEntry.filename →
      (k, ddf) ∈ ((others.foldl (stepPair refE opCol) acc).1)) :=
  ⟨stepPair_warnings refE opCol,
   pairLoop_warnings refE opCol,
   fun others₁ others₂ acc => List.foldl_append _ _ others₁ others₂,
   fun others acc k ddf hmem hne => pairLoop_preserve refE opCol others acc k ddf hne hmem⟩

/-- Witness for C5 at a concrete accumulator and pair list: an already
computed series for other-file `"x"` survives the processing of a later
pair (whose merge is empty, so it only appends a warning). -/
theorem claim_c5_warnings_additive_witness :
    ((("v".toList, "r", "x") : ResultKey), (⟨["id".toList], [[Value.num 1]]⟩ : DataFrame)) ∈
      (([⟨"b", ⟨["id".toList, "v".toList], []⟩, ["v".toList]⟩] :
          List ValidatedEntry).foldl
        (stepPair ⟨"r", ⟨["id".toList, "v".toList], []⟩, ["v".toList]⟩ "id".toList)
        ([((("v".toList, "r", "x") : ResultKey), (⟨["id".toList], [[Value.num 1]]⟩ : DataFrame))],
          [])).1 :=
  (claim_c5_warnings_additive ⟨"r", ⟨["id".toList, "v".toList], []⟩, ["v".toList]⟩
      "id".toList).2.2.2
    [⟨"b", ⟨["id".toList, "v".toList], []⟩, ["v".toList]⟩]
    ([((("v".toList, "r", "x") : ResultKey), (⟨["id".toList], [[Value.num 1]]⟩ : DataFrame))], [])
    (("v".toList, "r", "x") : ResultKey) ⟨["id".toList], [[Value.num 1]]⟩
    (List.mem_singleton.mpr rfl) (by decide)

/-! ## Merged-frame lemmas (towards C1 and C10) -/

theorem rowCell_cons (c0 : Str) (cs : List Str) (v : Value) (vs : List Value) (c : Str) :
    rowCell (c0 :: cs) (v :: vs) c = if c0 = c then v else rowCell cs vs c := rfl

theorem mergeInner_rows (l r : DataFrame) (key : Str) :
    (mergeInner l r key).rows =
      l.rows.flatMap (fun lr =>
        (r.rows.filter (fun rr =>
            decide (rowCell r.columns rr key = rowCell l.columns lr key))).map
          (mergedRow l r key lr)) := rfl

theorem mergeInner_columns (l r : DataFrame) (key : Str) :
    (mergeInner l r key).columns =
      key ::
        ((l.columns.filter (fun c => decide (c ≠ key))).map
            (fun c => if c ∈ r.columns.filter (fun c => decide (c ≠ key)) then c ++ sufREF else c) ++
         (r.columns.filter (fun c => decide (c ≠ key))).map
            (fun c => if c ∈ l.columns.filter (fun c => decide (c ≠ key)) then c ++ sufOTH else c)) := rfl

theorem mem_mergeInner_rows (l r : DataFrame) (key : Str) (row : List Value) :
    row ∈ (mergeInner l r key).rows ↔
      ∃ lr ∈ l.rows, ∃ rr ∈ r.rows,
        rowCell r.columns rr key = rowCell l.columns lr key ∧ row = mergedRow l r key lr rr := by
  rw [mergeInner_rows, List.mem_flatMap]
  constructor
  · rintro ⟨lr, hlr, hrow⟩
    rcases List.mem_map.mp hrow with ⟨rr, hrr, rfl⟩
    rcases List.mem_filter.mp hrr with ⟨hrrm, hkeq⟩
    exact ⟨lr, hlr, rr, hrrm, of_decide_eq_true hkeq, rfl⟩
  · rintro ⟨lr, hlr, rr, hrr, hkeq, rfl⟩
    exact ⟨lr, hlr, List.mem_map.mpr ⟨rr, List.mem_filter.mpr ⟨hrr, decide_eq_true hkeq⟩, rfl⟩⟩

theorem rowCell_mergedRow_key (l r : DataFrame) (key : Str) (lr rr : List Value) :
    rowCell (mergeInner l r key).columns (mergedRow l r key lr rr) key =
      rowCell l.columns lr key := by
  rw [mergeInner_columns]
  unfold mergedRow
  rw [rowCell_cons, if_pos rfl]

theorem sufREF_ne_sufOTH : sufREF ≠ sufOTH := by decide

theorem append_sufREF_inj {a b : Str} (h : a ++ sufREF = b ++ sufREF) : a = b :=
  (List.append_inj' h rfl).1

theorem append_sufOTH_inj {a b : Str} (h : a ++ sufOTH = b ++ sufOTH) : a = b :=
  (List.append_inj' h rfl).1

theorem append_sufREF_ne_sufOTH {a b : Str} : a ++ sufREF ≠ b ++ sufOTH := by
  intro h
  exact sufREF_ne_sufOTH (List.append_inj' h rfl).2

/-- Short names (shorter than the suffixes) are automatically clean. -/
theorem cleanName_of_short (s : Str) (h : s.length < 4) : CleanName s := by
  constructor
  · intro t ht
    rw [ht, List.length_append, show sufREF.length = 4 from rfl] at h
    omega
  · intro t ht
    rw [ht, List.length_append, show sufOTH.length = 4 from rfl] at h
    omega

/-- Walking a column list split into two aligned segments. -/
theorem rowCell_append (c : Str) :
    ∀ (as : List Str) (vs : List Value) (bs : List Str) (ws : List Value),
      as.length = vs.length →
      rowCell (as ++ bs) (vs ++ ws) c =
        if c ∈ as then rowCell as vs c else rowCell bs ws c := by
  intro as
  induction as with
  | nil =>
    intro vs bs ws hlen
    rcases vs with _ | ⟨v, vs'⟩
    · simp [List.nil_append]
    · exact absurd hlen (by simp)
  | cons a as' ih =>
    intro vs bs ws hlen
    rcases vs with _ | ⟨v, vs'⟩
    · exact absurd hlen (by simp)
    · by_cases hac : a = c
      · subst hac
        simp [rowCell, List.mem_cons]
      · have hlen' : as'.length = vs'.length := by
          simpa using hlen
        have hmem : (c ∈ a :: as') ↔ (c ∈ as') := by
          rw [List.mem_cons]
          exact ⟨fun h => h.elim (fun h' => absurd h'.symm hac) id, Or.inr⟩
        rw [List.cons_append, List.cons_append, rowCell_cons, if_neg hac, ih vs' bs ws hlen']
        by_cases hc : c ∈ as'
        · rw [if_pos hc, if_pos (hmem.mpr hc), rowCell_cons, if_neg hac]
        · rw [if_neg hc, if_neg (fun h => hc (hmem.mp h))]

/-- In a suffixed merge segment, the label `c ++ suffix` resolves to the
cell of column `c` (clean names make the suffixed label unambiguous). -/
theorem rowCell_suffix_map (suf : Str) (mem : Str → Prop) [DecidablePred mem] (g : Str → Value)
    (hsuf_inj : ∀ a b : Str, a ++ suf = b ++ suf → a = b)
    (hclean_ne : ∀ x : Str, CleanName x → ∀ t, x ≠ t ++ suf) :
    ∀ (lval : List Str) (c : Str), (∀ x ∈ lval, CleanName x) → c ∈ lval → mem c →
      rowCell (lval.map (fun x => if mem x then x ++ suf else x)) (lval.map g) (c ++ suf) = g c := by
  intro lval
  induction lval with
  | nil => intro c _ hc _; exact absurd hc (List.not_mem_nil c)
  | cons x xs ih =>
    intro c hclean hc hmemc
    by_cases hxc : x = c
    · subst hxc
      simp only [List.map_cons]
      unfold rowCell
      rw [if_pos hmemc, if_pos rfl]
    · have hxne : (if mem x then x ++ suf else x) ≠ c ++ suf := by
        by_cases hmx : mem x
        · rw [if_pos hmx]
          intro h
          exact hxc (hsuf_inj _ _ h)
        · rw [if_neg hmx]
          exact hclean_ne x (hclean x (List.mem_cons_self x xs)) c
      simp only [List.map_cons]
      unfold rowCell
      rw [if_neg hxne]
      refine ih c (fun y hy => hclean y (List.mem_cons_of_mem x hy)) ?_ hmemc
      rcases List.mem_cons.mp hc with h | h
      · exact absurd h.symm hxc
      · exact h

theorem mem_suffix_map (suf : Str) (mem : Str → Prop) [DecidablePred mem]
    (hsuf_inj : ∀ a b : Str, a ++ suf = b ++ suf → a = b)
    (hclean_ne : ∀ x : Str, CleanName x → ∀ t, x ≠ t ++ suf)
    (lval : List Str) (c : Str) (hclean : ∀ x ∈ lval, CleanName x) :
    ((c ++ suf) ∈ lval.map (fun x => if mem x then x ++ suf else x)) ↔ (c ∈ lval ∧ mem c) := by
  constructor
  · intro h
    rcases List.mem_map.mp h with ⟨x, hx, hfx⟩
    by_cases hmx : mem x
    · rw [if_pos hmx] at hfx
      have : x = c := hsuf_inj x c hfx
      subst this
      exact ⟨hx, hmx⟩
    · rw [if_neg hmx] at hfx
      exact absurd hfx (hclean_ne x (hclean x hx) c)
  · rintro ⟨hc, hmc⟩
    exact List.mem_map.mpr ⟨c, hc, by rw [if_pos hmc]⟩

theorem not_mem_other_suffix (suf suf' : Str) (mem : Str → Prop) [DecidablePred mem]
    (hcross : ∀ a b : Str, a ++ suf' ≠ b ++ suf)
    (hclean_ne : ∀ x : Str, CleanName x → ∀ t, x ≠ t ++ suf)
    (rval : List Str) (c : Str) (hclean : ∀ x ∈ rval, CleanName x) :
    (c ++ suf) ∉ rval.map (fun x => if mem x then x ++ suf' else x) := by
  intro h
  rcases List.mem_map.mp h with ⟨x, hx, hfx⟩
  by_cases hmx : mem x
  · rw [if_pos hmx] at hfx
    exact hcross x c hfx
  · rw [if_neg hmx] at hfx
    exact hclean_ne x (hclean x hx) c hfx

theorem cleanName_ne_REF (x : Str) (h : CleanName x) : ∀ t, x ≠ t ++ sufREF := h.1

theorem cleanName_ne_OTH (x : Str) (h : CleanName x) : ∀ t, x ≠ t ++ sufOTH := h.2

theorem clean_filter (cols : List Str) (key : Str) (hclean : ∀ x ∈ cols, CleanName x) :
    ∀ x ∈ cols.filter (fun c => decide (c ≠ key)), CleanName x :=
  fun x hx => hclean x (List.mem_filter.mp hx).1

theorem mem_merged_ref_col (l r : DataFrame) (key c : Str)
    (hcl : ∀ x ∈ l.columns, CleanName x) (hcr : ∀ x ∈ r.columns, CleanName x)
    (hkey : CleanName key)
    (h : (c ++ sufREF) ∈ (mergeInner l r key).columns) :
    c ∈ l.columns.filter (fun x => decide (x ≠ key)) ∧
      c ∈ r.columns.filter (fun x => decide (x ≠ key)) := by
  rw [mergeInner_columns, List.mem_cons, List.mem_append] at h
  rcases h with h | h | h
  · exact absurd h.symm (cleanName_ne_REF key hkey c)
  · exact (mem_suffix_map sufREF (fun x => x ∈ r.columns.filter (fun c => decide (c ≠ key)))
      (fun a b => append_sufREF_inj) cleanName_ne_REF _ c
      (clean_filter l.columns key hcl)).mp h
  · exact absurd h (not_mem_other_suffix sufREF sufOTH
      (fun x => x ∈ l.columns.filter (fun c => decide (c ≠ key)))
      (fun a b hh => append_sufREF_ne_sufOTH hh.symm)
      cleanName_ne_REF _ c (clean_filter r.columns key hcr))

theorem mem_merged_oth_col (l r : DataFrame) (key c : Str)
    (hcl : ∀ x ∈ l.columns, CleanName x) (hcr : ∀ x ∈ r.columns, CleanName x)
    (hkey : CleanName key)
    (h : (c ++ sufOTH) ∈ (mergeInner l r key).columns) :
    c ∈ l.columns.filter (fun x => decide (x ≠ key)) ∧
      c ∈ r.columns.filter (fun x => decide (x ≠ key)) := by
  rw [mergeInner_columns, List.mem_cons, List.mem_append] at h
  rcases h with h | h | h
  · exact absurd h.symm (cleanName_ne_OTH key hkey c)
  · exact absurd h (not_mem_other_suffix sufOTH sufREF
      (fun x => x ∈ r.columns.filter (fun c => decide (c ≠ key)))
      (fun a b hh => append_sufREF_ne_sufOTH hh)
      cleanName_ne_OTH _ c (clean_filter l.columns key hcl))
  · have := (mem_suffix_map sufOTH (fun x => x ∈ l.columns.filter (fun c => decide (c ≠ key)))
      (fun a b => append_sufOTH_inj) cleanName_ne_OTH _ c
      (clean_filter r.columns key hcr)).mp h
    exact ⟨this.2, this.1⟩

theorem rowCell_mergedRow_ref (l r : DataFrame) (key c : Str)
    (hcl : ∀ x ∈ l.columns, CleanName x) (hcr : ∀ x ∈ r.columns, CleanName x)
    (hkey : CleanName key)
    (hcv : c ∈ l.columns.filter (fun x => decide (x ≠ key)))
    (hcv' : c ∈ r.columns.filter (fun x => decide (x ≠ key)))
    (lr rr : List Value) :
    rowCell (mergeInner l r key).columns (mergedRow l r key lr rr) (c ++ sufREF) =
      rowCell l.columns lr c := by
  rw [mergeInner_columns]
  unfold mergedRow
  rw [rowCell_cons, if_neg (fun h => cleanName_ne_REF key hkey c h)]
  rw [rowCell_append _ _ _ _ _ (by rw [List.length_map, List.length_map])]
  rw [if_pos ((mem_suffix_map sufREF (fun x => x ∈ r.columns.filter (fun c => decide (c ≠ key)))
    (fun a b => append_sufREF_inj) cleanName_ne_REF _ c
    (clean_filter l.columns key hcl)).mpr ⟨hcv, hcv'⟩)]
  exact rowCell_suffix_map sufREF (fun x => x ∈ r.columns.filter (fun c => decide (c ≠ key)))
    (rowCell l.columns lr) (fun a b => append_sufREF_inj) cleanName_ne_REF
    _ c (clean_filter l.columns key hcl) hcv hcv'

theorem rowCell_mergedRow_oth (l r : DataFrame) (key c : Str)
    (hcl : ∀ x ∈ l.columns, CleanName x) (hcr : ∀ x ∈ r.columns, CleanName x)
    (hkey : CleanName key)
    (hcv : c ∈ l.columns.filter (fun x => decide (x ≠ key)))
    (hcv' : c ∈ r.columns.filter (fun x => decide (x ≠ key)))
    (lr rr : List Value) :
    rowCell (mergeInner l r key).columns (mergedRow l r key lr rr) (c ++ sufOTH) =
      rowCell r.columns rr c := by
  rw [mergeInner_columns]
  unfold mergedRow
  rw [rowCell_cons, if_neg (fun h => cleanName_ne_OTH key hkey c h)]
  rw [rowCell_append _ _ _ _ _ (by rw [List.length_map, List.length_map])]
  rw [if_neg (not_mem_other_suffix sufOTH sufREF
    (fun x => x ∈ r.columns.filter (fun c => decide (c ≠ key)))
    (fun a b hh => append_sufREF_ne_sufOTH hh)
    cleanName_ne_OTH _ c (clean_filter l.columns key hcl))]
  exact rowCell_suffix_map sufOTH (fun x => x ∈ l.columns.filter (fun c => decide (c ≠ key)))
    (rowCell r.columns rr) (fun a b => append_sufOTH_inj) cleanName_ne_OTH
    _ c (clean_filter r.columns key hcr) hcv' hcv

theorem dfSelect_some (df : DataFrame) (cols : List Str) (sel : DataFrame)
    (h : dfSelect df cols = some sel) :
    sel.columns = cols ∧
    sel.rows = df.rows.map (fun row => cols.map (fun c => rowCell df.columns row c)) ∧
    ∀ c ∈ cols, c ∈ df.columns := by
  unfold dfSelect at h
  split at h
  · rename_i hall
    rw [Option.some.injEq] at h
    subst h
    refine ⟨rfl, rfl, ?_⟩
    intro c hc
    rw [List.all_eq_true] at hall
    exact of_decide_eq_true (hall c hc)
  · exact Option.noConfusion h

theorem rowCell_map_self (c : Str) :
    ∀ (cols : List Str) (f : Str → Value), c ∈ cols → rowCell cols (cols.map f) c = f c := by
  intro cols
  induction cols with
  | nil => intro f hc; exact absurd hc (List.not_mem_nil c)
  | cons c0 cs ih =>
    intro f hc
    by_cases h0 : c0 = c
    · subst h0
      rw [List.map_cons, rowCell_cons, if_pos rfl]
    · rw [List.map_cons, rowCell_cons, if_neg h0]
      exact ih f (List.mem_cons.mp hc |>.resolve_left (fun h => h0 h.symm))

theorem colD_dfSelect (df : DataFrame) (cols : List Str) (sel : DataFrame)
    (h : dfSelect df cols = some sel) (c : Str) (hc : c ∈ cols) :
    colD sel c = colD df c := by
  rcases dfSelect_some df cols sel h with ⟨hcols, hrows, _⟩
  unfold colD
  rw [hcols, hrows, List.map_map]
  apply List.map_congr_left
  intro row hrow
  simp only [Function.comp]
  exact rowCell_map_self c cols (fun x => rowCell df.columns row x) hc

theorem dedupAux_cons (seen : List Str) (c : Str) (cs : List Str) :
    dedupAux seen (c :: cs) =
      if c ∈ seen then dedupAux seen cs else c :: dedupAux (seen ++ [c]) cs := rfl

theorem selectionCols_head (df : DataFrame) (ncols : List Str) (opCol : Str) :
    ∃ rest, selectionCols df ncols opCol = opCol :: rest := by
  refine ⟨dedupAux [opCol]
    (ncols.filter (fun c => decide (c ∈ df.columns) && decide (c ≠ opCol))), ?_⟩
  unfold selectionCols
  rw [dedupAux_cons, if_neg (List.not_mem_nil opCol)]
  rfl

theorem opCol_mem_selectionCols (df : DataFrame) (ncols : List Str) (opCol : Str) :
    opCol ∈ selectionCols df ncols opCol := by
  rcases selectionCols_head df ncols opCol with ⟨rest, hr⟩
  rw [hr]
  exact List.mem_cons_self opCol rest

theorem makeSeries_columns (merged : DataFrame) (opCol c : Str) :
    (makeSeries merged opCol c).columns = [opCol, diffColName] := rfl

theorem makeSeries_rows (merged : DataFrame) (opCol c : Str) :
    (makeSeries merged opCol c).rows =
      merged.rows.map (fun row =>
        [rowCell merged.columns row opCol,
         absDiff (rowCell merged.columns row (c ++ sufREF))
           (rowCell merged.columns row (c ++ sufOTH))]) := by
  unfold makeSeries colD
  simp only
  rw [zipWith_map_map, zipWith_map_map]

theorem colD_makeSeries_key (merged : DataFrame) (opCol c : Str) :
    colD (makeSeries merged opCol c) opCol = colD merged opCol := by
  unfold colD
  rw [makeSeries_columns, makeSeries_rows, List.map_map]
  apply List.map_congr_left
  intro row hrow
  simp only [Function.comp]
  rw [rowCell_cons, if_pos rfl]

theorem mem_colD_iff (df : DataFrame) (c : Str) (v : Value) :
    v ∈ colD df c ↔ ∃ row ∈ df.rows, rowCell df.columns row c = v := by
  unfold colD
  exact List.mem_map

theorem mem_colD_mergeInner_key (l r : DataFrame) (key : Str) (v : Value) :
    v ∈ colD (mergeInner l r key) key ↔ (v ∈ colD l key ∧ v ∈ colD r key) := by
  rw [mem_colD_iff, mem_colD_iff, mem_colD_iff]
  constructor
  · rintro ⟨row, hrow, hcell⟩
    rcases (mem_mergeInner_rows l r key row).mp hrow with ⟨lr, hlr, rr, hrr, hmatch, rfl⟩
    rw [rowCell_mergedRow_key] at hcell
    exact ⟨⟨lr, hlr, hcell⟩, ⟨rr, hrr, by rw [hmatch]; exact hcell⟩⟩
  · rintro ⟨⟨lr, hlr, hcl⟩, ⟨rr, hrr, hcr⟩⟩
    refine ⟨mergedRow l r key lr rr,
      (mem_mergeInner_rows l r key _).mpr ⟨lr, hlr, rr, hrr, by rw [hcl, hcr], rfl⟩, ?_⟩
    rw [rowCell_mergedRow_key, hcl]

theorem countP_map_const_value (v kv : Value) (xs : List (List Value)) :
    (xs.map (fun _ => kv)).countP (fun x => decide (x = v)) =
      if kv = v then xs.length else 0 := by
  rw [List.countP_map]
  by_cases hkv : kv = v
  · rw [if_pos hkv]
    have : ((fun x => decide (x = v)) ∘ (fun (_ : List Value) => kv)) =
        (fun (_ : List Value) => true) := by
      funext x
      simp [Function.comp, hkv]
    rw [this, List.countP_true]
  · rw [if_neg hkv]
    have : ((fun x => decide (x = v)) ∘ (fun (_ : List Value) => kv)) =
        (fun (_ : List Value) => false) := by
      funext x
      simp [Function.comp, hkv]
    rw [this, List.countP_false]
    rfl

theorem countP_flatMap_key (v : Value) (rrows : List (List Value)) (rcols : List Str) (key : Str) :
    ∀ (lrows : List (List Value)) (lcols : List Str),
      ((lrows.flatMap (fun lr =>
          (rrows.filter (fun rr => decide (rowCell rcols rr key = rowCell lcols lr key))).map
            (fun _ => rowCell lcols lr key))).countP (fun x => decide (x = v))) =
        ((lrows.map (fun lr => rowCell lcols lr key)).countP (fun x => decide (x = v))) *
          ((rrows.map (fun rr => rowCell rcols rr key)).countP (fun x => decide (x = v))) := by
  intro lrows
  induction lrows with
  | nil => intro lcols; simp
  | cons lr ls ih =>
    intro lcols
    rw [List.flatMap_cons, List.countP_append, List.map_cons, List.countP_cons, ih lcols,
      countP_map_const_value]
    by_cases hkv : rowCell lcols lr key = v
    · rw [if_pos hkv, if_pos (decide_eq_true hkv)]
      have hfilt : (rrows.filter
          (fun rr => decide (rowCell rcols rr key = rowCell lcols lr key))).length =
          ((rrows.map (fun rr => rowCell rcols rr key)).countP (fun x => decide (x = v))) := by
        rw [List.countP_map, ← List.countP_eq_length_filter]
        apply List.countP_congr
        intro rr hrr
        simp only [Function.comp]
        rw [hkv]
      rw [hfilt]
      ring
    · rw [if_neg hkv, if_neg (fun h => hkv (of_decide_eq_true h))]
      ring

theorem keyCount_colD_mergeInner (l r : DataFrame) (key : Str) (v : Value) :
    keyCount (colD (mergeInner l r key) key) v =
      keyCount (colD l key) v * keyCount (colD r key) v := by
  unfold keyCount colD
  rw [mergeInner_rows, List.map_flatMap]
  have hinner : ∀ lr : List Value,
      ((r.rows.filter (fun rr =>
          decide (rowCell r.columns rr key = rowCell l.columns lr key))).map
        (mergedRow l r key lr)).map
          (fun row => rowCell (mergeInner l r key).columns row key) =
      (r.rows.filter (fun rr =>
          decide (rowCell r.columns rr key = rowCell l.columns lr key))).map
        (fun _ => rowCell l.columns lr key) := by
    intro lr
    rw [List.map_map]
    apply List.map_congr_left
    intro rr hrr
    simp only [Function.comp]
    exact rowCell_mergedRow_key l r key lr rr
  simp only [hinner]
  exact countP_flatMap_key v r.rows r.columns key l.rows l.columns

/-! ## Provenance of stored difference series -/

theorem mem_dictInsert_entries (k : ResultKey) (v : DataFrame)
    (res : List (ResultKey × DataFrame)) (e : ResultKey × DataFrame)
    (he : e ∈ dictInsert k v res) : e = (k, v) ∨ e ∈ res := by
  unfold dictInsert at he
  split at he
  · rcases List.mem_map.mp he with ⟨x, hx, hfx⟩
    by_cases hxk : x.1 = k
    · rw [if_pos hxk] at hfx
      exact Or.inl hfx.symm
    · rw [if_neg hxk] at hfx
      exact Or.inr (hfx ▸ hx)
  · rcases List.mem_append.mp he with h | h
    · exact Or.inr h
    · exact Or.inl (List.mem_singleton.mp h)

theorem stepColumn_entries (merged : DataFrame) (opCol : Str) (rn othName : String)
    (acc : List (ResultKey × DataFrame) × List CompWarning) (c : Str)
    (e : ResultKey × DataFrame) (he : e ∈ (stepColumn merged opCol rn othName acc c).1) :
    e ∈ acc.1 ∨
      (e = ((c, rn, othName), makeSeries merged opCol c) ∧
        (c ++ sufREF) ∈ merged.columns ∧ (c ++ sufOTH) ∈ merged.columns) := by
  unfold stepColumn at he
  by_cases h1 : (c ++ sufREF) ∈ merged.columns
  · rw [if_pos h1] at he
    by_cases h2 : (c ++ sufOTH) ∈ merged.columns
    · rw [if_pos h2] at he
      by_cases h3 : (isNumericDtype (colD merged (c ++ sufREF)) &&
          isNumericDtype (colD merged (c ++ sufOTH))) = true
      · rw [if_pos h3] at he
        rcases mem_dictInsert_entries _ _ _ _ he with h | h
        · exact Or.inr ⟨h, h1, h2⟩
        · exact Or.inl h
      · rw [if_neg h3] at he
        exact Or.inl he
    · rw [if_neg h2] at he
      exact Or.inl he
  · rw [if_neg h1] at he
    exact Or.inl he

theorem colFold_entries (merged : DataFrame) (opCol : Str) (rn othName : String) :
    ∀ (cs : List Str) (acc : List (ResultKey × DataFrame) × List CompWarning)
      (e : ResultKey × DataFrame),
      e ∈ (cs.foldl (stepColumn merged opCol rn othName) acc).1 →
      e ∈ acc.1 ∨ ∃ c ∈ cs,
        e = ((c, rn, othName), makeSeries merged opCol c) ∧
        (c ++ sufREF) ∈ merged.columns ∧ (c ++ sufOTH) ∈ merged.columns := by
  intro cs
  induction cs with
  | nil => exact fun acc e he => Or.inl he
  | cons c cs' ih =>
    intro acc e he
    rcases ih (stepColumn merged opCol rn othName acc c) e he with h | ⟨c', hc', hrest⟩
    · rcases stepColumn_entries merged opCol rn othName acc c e h with h' | h'
      · exact Or.inl h'
      · exact Or.inr ⟨c, List.mem_cons_self c cs', h'⟩
    · exact Or.inr ⟨c', List.mem_cons_of_mem c hc', hrest⟩

theorem stepPair_entries (refE : ValidatedEntry) (opCol : Str)
    (acc : List (ResultKey × DataFrame) × List CompWarning) (othE : ValidatedEntry)
    (e : ResultKey × DataFrame) (he : e ∈ (stepPair refE opCol acc othE).1) :
    e ∈ acc.1 ∨ ∃ c lsel rsel,
      dfSelect refE.dataframe (selectionCols refE.dataframe refE.numeric_columns opCol) =
        some lsel ∧
      dfSelect othE.dataframe (selectionCols othE.dataframe othE.numeric_columns opCol) =
        some rsel ∧
      (c ++ sufREF) ∈ (mergeInner lsel rsel opCol).columns ∧
      (c ++ sufOTH) ∈ (mergeInner lsel rsel opCol).columns ∧
      e = ((c, refE.filename, othE.filename), makeSeries (mergeInner lsel rsel opCol) opCol c) := by
  unfold stepPair at he
  dsimp only at he
  rcases hsel1 : dfSelect refE.dataframe (selectionCols refE.dataframe refE.numeric_columns opCol)
      with _ | lsel <;> rw [hsel1] at he
  · exact Or.inl he
  · rcases hsel2 : dfSelect othE.dataframe (selectionCols othE.dataframe othE.numeric_columns opCol)
        with _ | rsel <;> rw [hsel2] at he
    · exact Or.inl he
    · dsimp only at he
      split at he
      · exact Or.inl he
      · rcases colFold_entries (mergeInner lsel rsel opCol) opCol refE.filename othE.filename
            refE.numeric_columns acc e he with h | ⟨c, hc, heq, h1, h2⟩
        · exact Or.inl h
        · exact Or.inr ⟨c, lsel, rsel, rfl, rfl, h1, h2, heq⟩

theorem pairLoop_entries (refE : ValidatedEntry) (opCol : Str) :
    ∀ (others : List ValidatedEntry) (acc : List (ResultKey × DataFrame) × List CompWarning)
      (e : ResultKey × DataFrame),
      e ∈ (others.foldl (stepPair refE opCol) acc).1 →
      e ∈ acc.1 ∨ ∃ othE ∈ others, ∃ c lsel rsel,
        dfSelect refE.dataframe (selectionCols refE.dataframe refE.numeric_columns opCol) =
          some lsel ∧
        dfSelect othE.dataframe (selectionCols othE.dataframe othE.numeric_columns opCol) =
          some rsel ∧
        (c ++ sufREF) ∈ (mergeInner lsel rsel opCol).columns ∧
        (c ++ sufOTH) ∈ (mergeInner lsel rsel opCol).columns ∧
        e = ((c, refE.filename, othE.filename),
          makeSeries (mergeInner lsel rsel opCol) opCol c) := by
  intro others
  induction others with
  | nil => exact fun acc e he => Or.inl he
  | cons o os ih =>
    intro acc e he
    rcases ih (stepPair refE opCol acc o) e he with h | ⟨othE, hothE, hrest⟩
    · rcases stepPair_entries refE opCol acc o e h with h' | h'
      · exact Or.inl h'
      · exact Or.inr ⟨o, List.mem_cons_self o os, h'⟩
    · exact Or.inr ⟨othE, List.mem_cons_of_mem o hothE, hrest⟩

theorem results_entries (validated : List ValidatedEntry) (opCol : Str) (k : ResultKey)
    (ddf : DataFrame) (hm : (k, ddf) ∈ (perform_column_comparison validated opCol).1) :
    ∃ refE othE, validated.head? = some refE ∧ othE ∈ validated.tail ∧ ∃ c lsel rsel,
      dfSelect refE.dataframe (selectionCols refE.dataframe refE.numeric_columns opCol) =
        some lsel ∧
      dfSelect othE.dataframe (selectionCols othE.dataframe othE.numeric_columns opCol) =
        some rsel ∧
      (c ++ sufREF) ∈ (mergeInner lsel rsel opCol).columns ∧
      (c ++ sufOTH) ∈ (mergeInner lsel rsel opCol).columns ∧
      k = (c, refE.filename, othE.filename) ∧
      ddf = makeSeries (mergeInner lsel rsel opCol) opCol c := by
  match validated with
  | [] => exact absurd hm (List.not_mem_nil _)
  | [refE] => exact absurd hm (List.not_mem_nil _)
  | refE :: o1 :: os =>
    unfold perform_column_comparison at hm
    rcases pairLoop_entries refE opCol (o1 :: os) _ (k, ddf) hm with h | h
    · exact absurd h (List.not_mem_nil _)
    · rcases h with ⟨othE, hothE, c, lsel, rsel, hs1, hs2, h1, h2, heq⟩
      rw [Prod.mk.injEq] at heq
      exact ⟨refE, othE, rfl, hothE, c, lsel, rsel, hs1, hs2, h1, h2, heq.1, heq.2⟩

/-! ## C10: duplicate keys give m × n join rows -/

/-- C10: every produced difference series comes from the reference table
(head of the validated list) and one other table; for every key value
`v`, the number of series entries with key `v` is exactly (occurrences
of `v` in the reference key column) × (occurrences of `v` in the other
table's key column) — so duplicated shared keys give more entries than
distinct shared key values. -/
theorem claim_c10_duplicate_keys (validated : List ValidatedEntry) (opCol : Str)
    (k : ResultKey) (ddf : DataFrame)
    (hm : (k, ddf) ∈ (perform_column_comparison validated opCol).1) :
    ∃ refE othE, validated.head? = some refE ∧ othE ∈ validated.tail ∧
      k.2.1 = refE.filename ∧ k.2.2 = othE.filename ∧
      ∀ v, keyCount (colD ddf opCol) v =
        keyCount (colD refE.dataframe opCol) v * keyCount (colD othE.dataframe opCol) v := by
  rcases results_entries validated opCol k ddf hm with
    ⟨refE, othE, hhead, htail, c, lsel, rsel, hs1, hs2, h1, h2, hk, hddf⟩
  refine ⟨refE, othE, hhead, htail, by rw [hk], by rw [hk], ?_⟩
  intro v
  rw [hddf, colD_makeSeries_key, keyCount_colD_mergeInner,
    colD_dfSelect refE.dataframe _ lsel hs1 opCol (opCol_mem_selectionCols _ _ _),
    colD_dfSelect othE.dataframe _ rsel hs2 opCol (opCol_mem_selectionCols _ _ _)]

/-- Witness for C10 at a concrete pair with a duplicated key: the key 1
occurs twice in the reference and three times in the other table, so the
series holds six entries for it. -/
theorem claim_c10_duplicate_keys_witness :
    ∃ refE othE,
      ([⟨"a", ⟨["id".toList, "v".toList],
          [[Value.num 1, Value.num 10], [Value.num 1, Value.num 20]]⟩, ["v".toList]⟩,
        ⟨"b", ⟨["id".toList, "v".toList],
          [[Value.num 1, Value.num 5], [Value.num 1, Value.num 7], [Value.num 1, Value.num 9]]⟩,
          ["v".toList]⟩] : List ValidatedEntry).head? = some refE ∧
      othE ∈ ([⟨"a", ⟨["id".toList, "v".toList],
          [[Value.num 1, Value.num 10], [Value.num 1, Value.num 20]]⟩, ["v".toList]⟩,
        ⟨"b", ⟨["id".toList, "v".toList],
          [[Value.num 1, Value.num 5], [Value.num 1, Value.num 7], [Value.num 1, Value.num 9]]⟩,
          ["v".toList]⟩] : List ValidatedEntry).tail ∧
      (("v".toList, "a", "b") : ResultKey).2.1 = refE.filename ∧
      (("v".toList, "a", "b") : ResultKey).2.2 = othE.filename ∧
      ∀ v, keyCount (colD ⟨["id".toList, "difference".toList],
          [[Value.num 1, Value.num 5], [Value.num 1, Value.num 3], [Value.num 1, Value.num 1],
           [Value.num 1, Value.num 15], [Value.num 1, Value.num 13], [Value.num 1, Value.num 11]]⟩
          "id".toList) v =
        keyCount (colD refE.dataframe "id".toList) v *
          keyCount (colD othE.dataframe "id".toList) v :=
  claim_c10_duplicate_keys
    [⟨"a", ⟨["id".toList, "v".toList],
        [[Value.num 1, Value.num 10], [Value.num 1, Value.num 20]]⟩, ["v".toList]⟩,
     ⟨"b", ⟨["id".toList, "v".toList],
        [[Value.num 1, Value.num 5], [Value.num 1, Value.num 7], [Value.num 1, Value.num 9]]⟩,
        ["v".toList]⟩]
    "id".toList ("v".toList, "a", "b")
    ⟨["id".toList, "difference".toList],
      [[Value.num 1, Value.num 5], [Value.num 1, Value.num 3], [Value.num 1, Value.num 1],
       [Value.num 1, Value.num 15], [Value.num 1, Value.num 13], [Value.num 1, Value.num 11]]⟩
    (by decide)

/-! ## C1: joined key values are the intersection; differences are
absolute differences -/

/-- C1: under the spec's well-formedness of column names (unique, and
here additionally not ending in the reserved `_REF`/`_OTH` merge
suffixes), every produced difference series belongs to the reference
table (head of the validated list) and one other table, the set of key
values in the series is exactly the intersection of the two tables' key
column value sets, and every series entry is
`[key value, |reference cell − other cell|]` for a key-matched pair of
rows of the two tables, in the series' column. -/
theorem claim_c1_intersection_absdiff (validated : List ValidatedEntry) (opCol : Str)
    (hclean : ∀ e ∈ validated, ∀ c ∈ e.dataframe.columns, CleanName c)
    (k : ResultKey) (ddf : DataFrame)
    (hm : (k, ddf) ∈ (perform_column_comparison validated opCol).1) :
    ∃ refE othE, validated.head? = some refE ∧ othE ∈ validated.tail ∧
      k.2.1 = refE.filename ∧ k.2.2 = othE.filename ∧
      (∀ v, v ∈ colD ddf opCol ↔
        (v ∈ colD refE.dataframe opCol ∧ v ∈ colD othE.dataframe opCol)) ∧
      (∀ row ∈ ddf.rows, ∃ lr ∈ refE.dataframe.rows, ∃ rr ∈ othE.dataframe.rows,
        rowCell refE.dataframe.columns lr opCol = rowCell othE.dataframe.columns rr opCol ∧
        row = [rowCell refE.dataframe.columns lr opCol,
               absDiff (rowCell refE.dataframe.columns lr k.1)
                 (rowCell othE.dataframe.columns rr k.1)]) := by
  rcases results_entries validated opCol k ddf hm with
    ⟨refE, othE, hhead, htail, c, lsel, rsel, hs1, hs2, h1, h2, hk, hddf⟩
  subst hk
  have hrefmem : refE ∈ validated := by
    rcases validated with _ | ⟨e0, rest⟩
    · exact Option.noConfusion hhead
    · rw [List.head?_cons, Option.some.injEq] at hhead
      exact hhead ▸ List.mem_cons_self e0 rest
  have hothmem : othE ∈ validated := by
    rcases validated with _ | ⟨e0, rest⟩
    · exact absurd htail (List.not_mem_nil _)
    · exact List.mem_cons_of_mem e0 htail
  have hclr : ∀ x ∈ refE.dataframe.columns, CleanName x := hclean refE hrefmem
  have hclo : ∀ x ∈ othE.dataframe.columns, CleanName x := hclean othE hothmem
  obtain ⟨hlcols, hlrows, hlsub⟩ := dfSelect_some _ _ _ hs1
  obtain ⟨hrcols, hrrows, hrsub⟩ := dfSelect_some _ _ _ hs2
  have hcll : ∀ x ∈ lsel.columns, CleanName x := fun x hx =>
    hclr x (hlsub x (hlcols ▸ hx))
  have hclrr : ∀ x ∈ rsel.columns, CleanName x := fun x hx =>
    hclo x (hrsub x (hrcols ▸ hx))
  have hkeyclean : CleanName opCol :=
    hcll opCol (hlcols ▸ opCol_mem_selectionCols refE.dataframe refE.numeric_columns opCol)
  have hov := mem_merged_ref_col lsel rsel opCol c hcll hclrr hkeyclean h1
  have hcmem_l : c ∈ lsel.columns := (List.mem_filter.mp hov.1).1
  have hcmem_r : c ∈ rsel.columns := (List.mem_filter.mp hov.2).1
  refine ⟨refE, othE, hhead, htail, rfl, rfl, ?_, ?_⟩
  · intro v
    rw [hddf, colD_makeSeries_key, mem_colD_mergeInner_key,
      colD_dfSelect refE.dataframe _ lsel hs1 opCol (opCol_mem_selectionCols _ _ _),
      colD_dfSelect othE.dataframe _ rsel hs2 opCol (opCol_mem_selectionCols _ _ _)]
  · intro row hrow
    rw [hddf, makeSeries_rows] at hrow
    rcases List.mem_map.mp hrow with ⟨mrow, hmrow, rfl⟩
    rcases (mem_mergeInner_rows lsel rsel opCol mrow).mp hmrow with
      ⟨lrS, hlrS, rrS, hrrS, hmatch, rfl⟩
    rw [hlrows] at hlrS
    rcases List.mem_map.mp hlrS with ⟨lr, hlr, rfl⟩
    rw [hrrows] at hrrS
    rcases List.mem_map.mp hrrS with ⟨rr, hrr, rfl⟩
    have hselL : ∀ x, x ∈ selectionCols refE.dataframe refE.numeric_columns opCol →
        rowCell lsel.columns
          ((selectionCols refE.dataframe refE.numeric_columns opCol).map
            (fun y => rowCell refE.dataframe.columns lr y)) x =
          rowCell refE.dataframe.columns lr x := by
      intro x hx
      rw [hlcols]
      exact rowCell_map_self x _ _ hx
    have hselR : ∀ x, x ∈ selectionCols othE.dataframe othE.numeric_columns opCol →
        rowCell rsel.columns
          ((selectionCols othE.dataframe othE.numeric_columns opCol).map
            (fun y => rowCell othE.dataframe.columns rr y)) x =
          rowCell othE.dataframe.columns rr x := by
      intro x hx
      rw [hrcols]
      exact rowCell_map_self x _ _ hx
    refine ⟨lr, hlr, rr, hrr, ?_, ?_⟩
    · rw [← hselL opCol (opCol_mem_selectionCols _ _ _),
        ← hselR opCol (opCol_mem_selectionCols _ _ _)]
      exact hmatch.symm
    · rw [rowCell_mergedRow_key,
        rowCell_mergedRow_ref lsel rsel opCol c hcll hclrr hkeyclean hov.1 hov.2,
        rowCell_mergedRow_oth lsel rsel opCol c hcll hclrr hkeyclean hov.1 hov.2,
        hselL opCol (opCol_mem_selectionCols _ _ _),
        hselL c (hlcols ▸ hcmem_l),
        hselR c (hrcols ▸ hcmem_r)]

/-- Witness for C1 on the spec's end-to-end example pair
(`id ∈ {1,2,3}` vs `id ∈ {1,2,4}`, intersection `{1,2}`). -/
theorem claim_c1_intersection_absdiff_witness :
    ∃ refE othE,
      ([⟨"a", ⟨["id".toList, "v".toList],
          [[Value.num 1, Value.num 10], [Value.num 2, Value.num 20], [Value.num 3, Value.num 30]]⟩,
          ["v".toList]⟩,
        ⟨"b", ⟨["id".toList, "v".toList],
          [[Value.num 1, Value.num 11], [Value.num 2, Value.num 19], [Value.num 4, Value.num 99]]⟩,
          ["v".toList]⟩] : List ValidatedEntry).head? = some refE ∧
      othE ∈ ([⟨"a", ⟨["id".toList, "v".toList],
          [[Value.num 1, Value.num 10], [Value.num 2, Value.num 20], [Value.num 3, Value.num 30]]⟩,
          ["v".toList]⟩,
        ⟨"b", ⟨["id".toList, "v".toList],
          [[Value.num 1, Value.num 11], [Value.num 2, Value.num 19], [Value.num 4, Value.num 99]]⟩,
          ["v".toList]⟩] : List ValidatedEntry).tail ∧
      (("v".toList, "a", "b") : ResultKey).2.1 = refE.filename ∧
      (("v".toList, "a", "b") : ResultKey).2.2 = othE.filename ∧
      (∀ v, v ∈ colD ⟨["id".toList, "difference".toList],
          [[Value.num 1, Value.num 1], [Value.num 2, Value.num 1]]⟩ "id".toList ↔
        (v ∈ colD refE.dataframe "id".toList ∧ v ∈ colD othE.dataframe "id".toList)) ∧
      (∀ row ∈ (⟨["id".toList, "difference".toList],
          [[Value.num 1, Value.num 1], [Value.num 2, Value.num 1]]⟩ : DataFrame).rows,
        ∃ lr ∈ refE.dataframe.rows, ∃ rr ∈ othE.dataframe.rows,
        rowCell refE.dataframe.columns lr "id".toList =
          rowCell othE.dataframe.columns rr "id".toList ∧
        row = [rowCell refE.dataframe.columns lr "id".toList,
               absDiff (rowCell refE.dataframe.columns lr
                   (("v".toList, "a", "b") : ResultKey).1)
                 (rowCell othE.dataframe.columns rr
                   (("v".toList, "a", "b") : ResultKey).1)]) :=
  claim_c1_intersection_absdiff
    [⟨"a", ⟨["id".toList, "v".toList],
        [[Value.num 1, Value.num 10], [Value.num 2, Value.num 20], [Value.num 3, Value.num 30]]⟩,
        ["v".toList]⟩,
     ⟨"b", ⟨["id".toList, "v".toList],
        [[Value.num 1, Value.num 11], [Value.num 2, Value.num 19], [Value.num 4, Value.num 99]]⟩,
        ["v".toList]⟩]
    "id".toList
    (by
      intro e he c hc
      apply cleanName_of_short c
      have hcols : c ∈ ["id".toList, "v".toList] := by
        rcases List.mem_cons.mp he with rfl | he'
        · exact hc
        · rcases List.mem_cons.mp he' with rfl | he''
          · exact hc
          · exact absurd he'' (List.not_mem_nil e)
      rcases List.mem_cons.mp hcols with rfl | hcols'
      · decide
      · rcases List.mem_singleton.mp hcols' with rfl
        decide)
    ("v".toList, "a", "b")
    ⟨["id".toList, "difference".toList],
      [[Value.num 1, Value.num 1], [Value.num 2, Value.num 1]]⟩
    (by decide)

end CsvAgg
